import Mathlib

/-!
Verification development for the strategic decision engine of the foul-play
battle bot.  The Python sources under `fp/search` and `fp/strategy` are
shallowly embedded here: pure functions become Lean functions over `ℚ`
(Python floats are modelled by exact rationals), dict lookups become
association-list or `Option`-typed lookups, and the external collaborators
that are out of scope of the repository (the type-effectiveness table
`type_effectiveness_modifier`, the move database `all_move_json`, the name
normaliser `normalize_name` and the damage-roll engine
`poke_engine_get_damage_rolls`) are abstracted as explicit oracle
parameters, so that every theorem quantifies over their behaviour.
Randomness (`random.choices`) is modelled by an explicit `draw` parameter.
-/

namespace FoulPlay

/-- A move of a unit: `fp.battle.Move` fields used by the engine
(name, remaining PP, disabled flag). -/
structure Move where
  name : String
  current_pp : Int
  disabled : Bool
deriving Repr, DecidableEq

/-- A unit (`fp.battle.Pokemon`): only the fields read by the strategy
layer are modelled.  `item = none` models Python `None`;
`attack_boost` models `boosts.get("attack", 0)`. -/
structure Pokemon where
  name : String
  types : List String
  hp : ℚ
  max_hp : ℚ
  speed : ℚ
  item : Option String
  ability : String
  status : Option String
  knocked_off : Bool
  terastallized : Bool
  tera_type : Option String
  volatile_statuses : List String
  attack_boost : Int
  index : Option Nat
  moves : List Move
deriving Repr, DecidableEq

/-- Per-side hazard counters (`battle.user.side_conditions`): only the keys
read by the risk analyzer are modelled. -/
structure SideConditions where
  stealthrock : Nat
  spikes : Nat
  toxicspikes : Nat
deriving Repr, DecidableEq

/-- One side of a battle: an optional active unit and a reserve list. -/
structure Side where
  active : Option Pokemon
  reserve : List Pokemon
  side_conditions : SideConditions
deriving Repr, DecidableEq

/-- The battle state fields read by the strategy layer.
`time_remaining = none` models Python `None`. -/
structure Battle where
  user : Side
  opponent : Side
  team_preview : Bool
  time_remaining : Option ℚ
  turn : Nat
deriving Repr, DecidableEq

/-- Move metadata from the external move database `all_move_json`.
`accuracy` is either a bool or a number in the JSON. -/
inductive JsonAccuracy where
  | abool (b : Bool)
  | anum (q : ℚ)
deriving Repr, DecidableEq

/-- The `all_move_json` entry fields read by the engine.  A `.get` with a
default on a present entry is modelled by the field itself. -/
structure MoveData where
  category : String
  basePower : ℚ
  move_type : String
  accuracy : JsonAccuracy
  willCrit : Bool
  noCrit : Bool
deriving Repr, DecidableEq

/-- The external collaborators, abstracted as oracles:
`moveData` is `all_move_json` (a `none` result models a missing key),
`norm` is `normalize_name`, `eff` is `type_effectiveness_modifier`, and
`rolls` is `poke_engine_get_damage_rolls` restricted to the queried side
(an `Except.error` result models a raised exception). -/
structure Oracles where
  moveData : String → Option MoveData
  norm : String → String
  eff : String → List String → ℚ
  rolls : Battle → String → Except Unit (List ℚ)

/-! ## String helpers

Python's `str.startswith`, `str.endswith`, `str.strip`, `split(" ", 1)`
and `int(...)`/`isdigit` are modelled by structurally recursive functions
over the character list, so that concrete instances evaluate inside
proofs (the corresponding core `String` functions use well-founded
recursion, which does not reduce). -/

/-- Python `s.startswith(p)`. -/
def strStartsWith (s p : String) : Bool := p.data.isPrefixOf s.data

/-- Python `s.endswith(p)`. -/
def strEndsWith (s p : String) : Bool := p.data.isSuffixOf s.data

/-- Python `s.strip()`. -/
def strTrim (s : String) : String :=
  ⟨((s.data.dropWhile Char.isWhitespace).reverse.dropWhile Char.isWhitespace).reverse⟩

/-- Drop the last `n` characters (used to strip `-tera` / `-mega`). -/
def strDropRight (s : String) (n : Nat) : String :=
  ⟨s.data.take (s.data.length - n)⟩

/-- Python `s.isdigit() and int(s)`: the numeric value when every
character is a digit. -/
def strToNatQ (s : String) : Option Nat :=
  if s.data ≠ [] && s.data.all (·.isDigit) then
    some (s.data.foldl (fun n c => 10 * n + (c.toNat - '0'.toNat)) 0)
  else none

/-! ## Association-list helpers (Python `dict` with insertion order) -/

/-- `d[k] = v` on a Python dict: replace in place, else append. -/
def alistInsert {β : Type} (l : List (String × β)) (k : String) (v : β) :
    List (String × β) :=
  match l with
  | [] => [(k, v)]
  | e :: rest => if e.1 = k then (k, v) :: rest else e :: alistInsert rest k v

/-- `d.get(k)` on a Python dict. -/
def alistLookup {β : Type} (l : List (String × β)) (k : String) : Option β :=
  (l.find? (fun e => e.1 = k)).map (·.2)

/-- `d[k] = d.get(k, 0) + w` on a Python dict of numbers. -/
def alistAdd (l : List (String × ℚ)) (k : String) (w : ℚ) : List (String × ℚ) :=
  match l with
  | [] => [(k, w)]
  | e :: rest => if e.1 = k then (e.1, e.2 + w) :: rest else e :: alistAdd rest k w

/-! ## fp/strategy/risk.py : hazard costs and the tera context manager -/

/-- `SPIKES_FRACTIONS.get(layers, SPIKES_FRACTIONS[3])` from risk.py. -/
def spikesFraction (layers : Nat) : ℚ :=
  match layers with
  | 1 => 1/8
  | 2 => 3/16
  | _ => 1/4

/-- `TOXIC_SPIKES_PENALTY.get(min(layers, 2), TOXIC_SPIKES_PENALTY[1])`
from risk.py (the argument is already `min`-clamped by the caller). -/
def toxicSpikesPenalty (layers : Nat) : ℚ :=
  match layers with
  | 2 => 3/16
  | _ => 1/8

/-- `RiskRewardAnalyzer._stealth_rock_damage`. -/
def stealth_rock_damage (eff : String → List String → ℚ) (p : Pokemon) : ℚ :=
  if p.types = [] then 0
  else eff "rock" p.types / 8 * p.max_hp

/-- `RiskRewardAnalyzer._is_grounded`. -/
def is_grounded (p : Pokemon) : Bool :=
  if p.types.contains "flying" then false
  else if p.ability = "levitate" && !p.terastallized then false
  else if p.item = some "airballoon" then false
  else if p.volatile_statuses.contains "magnetrise"
       || p.volatile_statuses.contains "telekinesis" then false
  else true

/-- `RiskRewardAnalyzer._estimate_switch_hazard_cost`.  The `target`
argument is optional exactly as in the source (`if not target: return 0.0`). -/
def estimate_switch_hazard_cost (eff : String → List String → ℚ)
    (battle : Battle) (target : Option Pokemon) : ℚ :=
  match target with
  | none => 0
  | some t =>
    if t.item = some "heavydutyboots" && !t.knocked_off then 0
    else
      let hazards := battle.user.side_conditions
      let d1 := if hazards.stealthrock ≠ 0 then stealth_rock_damage eff t else 0
      let d2 := if hazards.spikes ≠ 0 && is_grounded t
                then t.max_hp * spikesFraction hazards.spikes else 0
      let d3 := if hazards.toxicspikes ≠ 0 && is_grounded t
                   && t.status = none
                   && !t.types.contains "poison" && !t.types.contains "steel"
                then t.max_hp * toxicSpikesPenalty (min hazards.toxicspikes 2) else 0
      d1 + d2 + d3

/-- `RiskRewardAnalyzer._temporary_tera`: the generator-based context
manager is embedded as a higher-order function.  The body receives the
battle with the mutated active unit; the restoring assignments of the
`finally` block are applied to the returned battle on both the normal and
the raising exit path (the body's `Except`-typed result carries the error). -/
def temporary_tera {α : Type} (battle : Battle) (should_tera : Bool)
    (body : Battle → α) : Battle × α :=
  match battle.user.active with
  | none => (battle, body battle)
  | some pokemon =>
    match pokemon.tera_type with
    | none => (battle, body battle)
    | some tt =>
      if !should_tera || pokemon.terastallized then (battle, body battle)
      else
        let mutated := { pokemon with terastallized := true, types := [tt] }
        let result := body { battle with user := { battle.user with active := some mutated } }
        let restored := { mutated with types := pokemon.types,
                                       terastallized := pokemon.terastallized }
        ({ battle with user := { battle.user with active := some restored } }, result)

/-! ## fp/strategy/time_manager.py -/

/-- `TimeManager` dataclass state. -/
structure TimeManager where
  bank_ms : ℚ
  last_time_allocation : ℚ
  high_leverage_turn : Bool
  safety_buffer_s : ℚ
  allocation_history : List ℚ
  min_allocation_ms : ℚ
  max_allocation_ms : ℚ
deriving Repr, DecidableEq

/-- The dataclass defaults; `search_time_ms` is `FoulPlayConfig.search_time_ms`. -/
def TimeManager.init (search_time_ms : ℚ) : TimeManager :=
  ⟨search_time_ms * 15, 0, false, 6, [], 75, 4000⟩

/-- `sum(1 for p in [side.active] + side.reserve if p and p.hp > 0)`,
the alive count used in main.py and time_manager.py. -/
def alive_count (side : Side) : Nat :=
  (side.active.toList ++ side.reserve).countP (fun p => p.hp > 0)

/-- `TimeManager._sync_clock`. -/
def sync_clock (tm : TimeManager) (battle : Battle) : TimeManager :=
  match battle.time_remaining with
  | none => tm
  | some t =>
    let safe_seconds := max 0 (t - tm.safety_buffer_s)
    { tm with bank_ms := max (safe_seconds * 1000) (tm.min_allocation_ms * 3) }

/-- `TimeManager._estimate_turns_remaining`. -/
def estimate_turns_remaining (battle : Battle) : Nat :=
  max 3 (alive_count battle.user + alive_count battle.opponent)

/-- `TimeManager.allocate_search_time`; returns the updated manager and the
returned `int(allocation)` (the allocation is at least
`min_allocation_ms > 0`, so Python's truncation is the floor). -/
def allocate_search_time (tm : TimeManager) (battle : Battle)
    (criticality : ℚ) (search_time_ms : ℚ) : TimeManager × Int :=
  let tm := sync_clock tm battle
  let leverage_bonus : ℚ := if tm.high_leverage_turn then 2/5 else 0
  let desired := search_time_ms * max 1 (criticality + leverage_bonus)
  let desired := min desired tm.max_allocation_ms
  let remaining_turns := estimate_turns_remaining battle
  let soft_limit := tm.bank_ms / (max remaining_turns 1 : ℚ)
  let allocation := min desired soft_limit
  let allocation := max tm.min_allocation_ms allocation
  ({ tm with bank_ms := max 0 (tm.bank_ms - allocation),
             last_time_allocation := allocation,
             allocation_history := tm.allocation_history ++ [allocation] },
   ⌊allocation⌋)

/-! ## fp/search/main.py : position criticality -/

/-- The position-metrics dictionary as read by
`calculate_position_criticality`; a `none` field models a missing key,
whose `[...]` access raises `KeyError` into the local handler. -/
structure PositionMetricsDict where
  opp_sweep_potential : Option ℚ
  has_win_condition : Option Bool
  momentum : Option ℚ
deriving Repr, DecidableEq

/-- The metrics dictionary carries every key the happy path reads. -/
def metrics_complete (pm : PositionMetricsDict) : Prop :=
  pm.opp_sweep_potential ≠ none ∧ pm.has_win_condition ≠ none ∧ pm.momentum ≠ none

instance (pm : PositionMetricsDict) : Decidable (metrics_complete pm) := by
  unfold metrics_complete; infer_instance

/-- The low-HP condition of `calculate_position_criticality`
(`battle.user.active and battle.user.active.max_hp > 0` and ratio `< 0.3`). -/
def low_hp_flag (battle : Battle) : Bool :=
  match battle.user.active with
  | some a => a.max_hp > 0 && a.hp / a.max_hp < 3/10
  | none => false

/-- The `except` handler of `calculate_position_criticality`: it keeps the
criticality accumulated so far and doubles it for a near-endgame team. -/
def criticality_handler (battle : Battle) (criticality : ℚ) : ℚ :=
  if alive_count battle.user ≤ 2 then criticality * 2 else criticality

/-- `calculate_position_criticality` (main.py), for an explicitly supplied
metrics dictionary.  The sequential multiplications run inside `try`; the
first missing key aborts into `criticality_handler` with the value
accumulated so far, skipping the final clamp — exactly as in the source. -/
def calculate_position_criticality (battle : Battle)
    (pm : PositionMetricsDict) : ℚ :=
  if battle.team_preview then 1
  else
    let criticality : ℚ := 1
    let user_alive := alive_count battle.user
    let opp_alive := alive_count battle.opponent
    let criticality := if user_alive ≤ 2 then criticality * 2
      else if user_alive ≤ 3 then criticality * (3/2) else criticality
    let criticality := if opp_alive ≤ 2 then criticality * (13/10) else criticality
    let criticality := if low_hp_flag battle then criticality * (3/2) else criticality
    match pm.opp_sweep_potential with
    | none => criticality_handler battle criticality
    | some sp =>
      let criticality := if sp ≥ 7/10 then criticality * (9/5) else criticality
      match pm.has_win_condition with
      | none => criticality_handler battle criticality
      | some hw =>
        let criticality := if !hw then criticality * (13/10) else criticality
        match pm.momentum with
        | none => criticality_handler battle criticality
        | some mo =>
          let criticality := if mo < 2/5 then criticality * (6/5) else criticality
          min criticality 3

/-! ## fp/strategy/damage.py -/

/-- `DamageEstimate` dataclass. -/
structure DamageEstimate where
  name : String
  expected_damage : ℚ
  variance : ℚ
  min_damage : ℚ
  max_damage : ℚ
  hit_chance : ℚ
  crit_chance : ℚ
  on_hit_mean : ℚ
deriving Repr, DecidableEq

/-- `DamageEstimate.fail_chance` property. -/
def DamageEstimate.fail_chance (d : DamageEstimate) : ℚ :=
  max 0 (1 - d.hit_chance)

/-- `DamageEstimate.zero`. -/
def DamageEstimate.zero (name : String) : DamageEstimate :=
  ⟨name, 0, 0, 0, 0, 0, 0, 0⟩

/-- `_accuracy_from_move` (the JSON value is a bool or a number; the
`float()` conversion of a number never raises in this model). -/
def accuracy_from_move (md : MoveData) : ℚ :=
  match md.accuracy with
  | .abool b => if b then 1 else 0
  | .anum a => max 0 (min 1 (a / 100))

/-- `_crit_chance_from_move`. -/
def crit_chance_from_move (md : MoveData) : ℚ :=
  if md.willCrit then 1
  else if md.noCrit then 0
  else 1/24

/-- `_fallback_damage_estimate`; the attacker/defender presence guard is
discharged by the caller (`estimate_damage` passes unwrapped actives). -/
def fallback_damage_estimate (o : Oracles) (name : String) (md : MoveData)
    (attacker defender : Pokemon) : DamageEstimate :=
  let base_power := md.basePower
  let move_type := md.move_type
  let effectiveness := o.eff move_type defender.types
  let stab : ℚ := if attacker.types.contains move_type then 3/2 else 1
  let raw := base_power * effectiveness * stab
  let min_damage := raw * (17/20)
  let max_damage := raw
  let on_hit_mean := (min_damage + max_damage) / 2
  let hit_chance := accuracy_from_move md
  let expected := hit_chance * on_hit_mean
  let spread := max_damage - min_damage
  let on_hit_variance := if spread > 0 then spread ^ 2 / 12 else 0
  let variance := hit_chance * on_hit_variance
    + hit_chance * (1 - hit_chance) * on_hit_mean ^ 2
  ⟨name, expected, variance, min_damage, max_damage, hit_chance,
   crit_chance_from_move md, on_hit_mean⟩

/-- `estimate_damage` (damage.py); `user_side = true` is
`attacker_side="user"`.  The second component counts the queries issued to
the damage-roll engine (`poke_engine_get_damage_rolls`): the engine is
queried exactly once on the non-short-circuit path, whether it succeeds,
raises, or returns no rolls. -/
def estimate_damage (o : Oracles) (battle : Battle) (move_name : String)
    (user_side : Bool) : DamageEstimate × Nat :=
  if strStartsWith move_name "switch" then (.zero move_name, 0)
  else
    let normalized_move := o.norm move_name
    match o.moveData normalized_move with
    | none => (.zero normalized_move, 0)
    | some md =>
      if md.category ≠ "physical" && md.category ≠ "special" then
        (.zero normalized_move, 0)
      else
        let attacker := if user_side then battle.user.active else battle.opponent.active
        let defender := if user_side then battle.opponent.active else battle.user.active
        match attacker, defender with
        | some attacker, some defender =>
          let accuracy := accuracy_from_move md
          let crit_chance := crit_chance_from_move md
          match o.rolls battle normalized_move with
          | .error _ =>
            (fallback_damage_estimate o normalized_move md attacker defender, 1)
          | .ok rolls =>
            match rolls with
            | [] => (fallback_damage_estimate o normalized_move md attacker defender, 1)
            | r0 :: rest =>
              let max_noncrit := r0
              let max_crit := match rest with
                | r1 :: _ => r1
                | [] => r0
              let min_noncrit := max_noncrit * (17/20)
              let min_crit := max_crit * (17/20)
              let mean_noncrit := (min_noncrit + max_noncrit) / 2
              let mean_crit := (min_crit + max_crit) / 2
              let on_hit_mean := (1 - crit_chance) * mean_noncrit
                + crit_chance * mean_crit
              let spread_noncrit := max_noncrit - min_noncrit
              let spread_crit := max_crit - min_crit
              let var_noncrit := if spread_noncrit > 0 then spread_noncrit ^ 2 / 12 else 0
              let var_crit := if spread_crit > 0 then spread_crit ^ 2 / 12 else 0
              let on_hit_variance := (1 - crit_chance) * var_noncrit
                + crit_chance * var_crit
                + (1 - crit_chance) * (mean_noncrit - on_hit_mean) ^ 2
                + crit_chance * (mean_crit - on_hit_mean) ^ 2
              let expected_damage := accuracy * on_hit_mean
              let variance := accuracy * on_hit_variance
                + accuracy * (1 - accuracy) * on_hit_mean ^ 2
              (⟨normalized_move, expected_damage, variance, min_noncrit,
                max_crit, accuracy, crit_chance, on_hit_mean⟩, 1)
        | _, _ => (.zero normalized_move, 0)

/-! ## fp/strategy/risk.py : the risk/reward analyzer -/

/-- `MoveRiskProfile` dataclass. -/
structure MoveRiskProfile where
  name : String
  expected_value : ℚ
  fail_chance : ℚ
  variance : ℚ
  min_damage : ℚ
  max_damage : ℚ
  hazard_cost : ℚ
  crit_chance : ℚ
  description : String
deriving Repr, DecidableEq

/-- `move_name.split(" ", 1)[1]` when a space is present. -/
def splitFirstSpace (move_name : String) : Option String :=
  if move_name.data.contains ' ' then
    some ⟨(move_name.data.dropWhile (fun c => !(c = ' '))).drop 1⟩
  else none

/-- `RiskRewardAnalyzer._resolve_switch_target`. -/
def resolve_switch_target (o : Oracles) (battle : Battle)
    (move_name : String) : Option Pokemon :=
  match splitFirstSpace move_name with
  | none => none
  | some identifier =>
    let identifier := strTrim identifier
    let normalized_identifier := o.norm identifier
    battle.user.reserve.find? (fun p =>
      o.norm p.name = normalized_identifier
      || (match strToNatQ identifier, p.index with
          | some n, some i => decide (i ≠ 0) && decide (i = n)
          | _, _ => false))

/-- `RiskRewardAnalyzer._split_move_metadata`: returns the base name and
the (tera, mega) flags. -/
def split_move_metadata (move_name : String) : String × Bool × Bool :=
  let normalized := strTrim move_name
  let stripped1 := if strEndsWith normalized "-tera" then strDropRight normalized 5
                   else normalized
  let is_tera := strEndsWith normalized "-tera"
  let is_mega := strEndsWith stripped1 "-mega"
  let stripped2 := if strEndsWith stripped1 "-mega" then strDropRight stripped1 5
                   else stripped1
  (stripped2, is_tera, is_mega)

/-- `RiskRewardAnalyzer._build_profile_from_damage`. -/
def build_profile_from_damage (move_name : String) (damage : DamageEstimate)
    (leverage_multiplier : ℚ) (description : String) (hazard_cost : ℚ) :
    MoveRiskProfile :=
  ⟨move_name,
   damage.expected_damage - hazard_cost,
   damage.fail_chance,
   damage.variance * leverage_multiplier,
   damage.min_damage,
   damage.max_damage,
   hazard_cost,
   damage.crit_chance,
   description⟩

/-- The mutable state threaded through the scoring loop of
`evaluate_moves`: the battle (mutated and restored by the tera context
manager), the `turn_cache` dict, and the number of damage-engine queries
issued so far. -/
structure EvalState where
  battle : Battle
  cache : List (String × MoveRiskProfile)
  queries : Nat
deriving Repr

/-- One iteration of the `for move_name in moves_to_score` loop of
`RiskRewardAnalyzer.evaluate_moves`. -/
def score_one_move (o : Oracles) (leverage_multiplier : ℚ)
    (st : EvalState) (move_name : String) : EvalState :=
  if strStartsWith move_name "switch" then
    let target := resolve_switch_target o st.battle move_name
    let hazard_cost := estimate_switch_hazard_cost o.eff st.battle target
    let description := if hazard_cost ≤ 1 then "switch" else "switch-hazard"
    let profile : MoveRiskProfile :=
      ⟨move_name, -hazard_cost, 0, hazard_cost * leverage_multiplier * (1/20),
       -hazard_cost, 0, hazard_cost, 0, description⟩
    { st with cache := alistInsert st.cache move_name profile }
  else
    let meta := split_move_metadata move_name
    let normalized_name := o.norm meta.1
    let scored := temporary_tera st.battle meta.2.1
      (fun b => estimate_damage o b normalized_name true)
    let battle2 := scored.1
    let damage := scored.2.1
    let d1 : String := if meta.2.1 then "tera" else if meta.2.2 then "mega" else "raw"
    let d2 := if damage.fail_chance ≥ 3/10 then "high-risk" else d1
    let d3 := match battle2.opponent.active with
      | some opp => if opp.hp ≠ 0 && decide (damage.max_damage ≥ opp.hp)
                    then "finisher" else d2
      | none => d2
    { battle := battle2,
      cache := alistInsert st.cache move_name
        (build_profile_from_damage move_name damage leverage_multiplier d3 0),
      queries := st.queries + scored.2.2 }

/-- `{mv: self.turn_cache[mv] for mv in moves if mv in self.turn_cache}`
(duplicate keys in `moves` are collapsed by the Python dict; the claims
below use duplicate-free move lists). -/
def resultFor (moves : List String) (cache : List (String × MoveRiskProfile)) :
    List (String × MoveRiskProfile) :=
  moves.filterMap (fun mv => (alistLookup cache mv).map (fun p => (mv, p)))

/-- The result of `RiskRewardAnalyzer.evaluate_moves`: the battle after the
call, the `turn_cache` after the call, the returned mapping, and the
number of damage-engine queries issued during the call. -/
structure EvalResult where
  battle : Battle
  cache : List (String × MoveRiskProfile)
  result : List (String × MoveRiskProfile)
  queries : Nat
deriving Repr

/-- The `leverage_multiplier` computation of `evaluate_moves`
(`position_metrics.get("momentum", 0.5)`, thresholded). -/
def leverage_from_metrics (pm : Option PositionMetricsDict) : ℚ :=
  match pm with
  | none => 1
  | some m =>
    let momentum := m.momentum.getD (1/2)
    if momentum < 2/5 then 3/2 else if momentum > 7/10 then 3/4 else 1

/-- `RiskRewardAnalyzer.evaluate_moves`.  `candidate_moves = none` is the
default call, which clears `turn_cache` and scores the active unit's full
move list; an explicit candidate list keeps the existing cache. -/
def evaluate_moves (o : Oracles) (battle : Battle)
    (pm : Option PositionMetricsDict) (candidate_moves : Option (List String))
    (cache0 : List (String × MoveRiskProfile)) : EvalResult :=
  if battle.user.active = none || battle.opponent.active = none then
    ⟨battle, cache0, cache0, 0⟩
  else
    let step1 : List (String × MoveRiskProfile) × List String :=
      match candidate_moves with
      | none => ([], ((battle.user.active.map (fun a => a.moves.map (·.name))).getD []))
      | some l => (cache0, l)
    let cache1 := step1.1
    let moves := step1.2
    if moves = [] then ⟨battle, cache1, cache1, 0⟩
    else
      let moves_to_score := moves.filter (fun mv => (alistLookup cache1 mv).isNone)
      if moves_to_score = [] then ⟨battle, cache1, resultFor moves cache1, 0⟩
      else
        let final := moves_to_score.foldl
          (score_one_move o (leverage_from_metrics pm)) ⟨battle, cache1, 0⟩
        ⟨final.battle, final.cache, resultFor moves final.cache, final.queries⟩

/-! ## fp/search/move_priors.py -/

/-- `calculate_move_effectiveness` (a missing move raises `KeyError`,
caught to `1.0`). -/
def calculate_move_effectiveness (o : Oracles) (move_name : String)
    (defender_types : List String) : ℚ :=
  match o.moveData move_name with
  | some md => o.eff md.move_type defender_types
  | none => 1

/-- `is_status_move`. -/
def is_status_move (o : Oracles) (move_name : String) : Bool :=
  match o.moveData move_name with
  | some md => md.category = "status"
  | none => false

/-- The `setup_moves` set of move_priors.py. -/
def PRIOR_SETUP_MOVES : List String :=
  ["swordsdance", "dragondance", "nastyplot", "quiverdance", "calmmind",
   "irondefense", "agility", "rockpolish", "shellsmash", "geomancy",
   "bulkup", "curse", "coil", "honeclaws", "workup", "growth",
   "acupressure", "bellydrum", "chargebeam", "cosmicpower"]

/-- `is_setup_move` (move_priors.py). -/
def is_setup_move (move_name : String) : Bool :=
  PRIOR_SETUP_MOVES.contains move_name

/-- `can_setup_safely`. -/
def can_setup_safely (o : Oracles) (battle : Battle) : Bool :=
  match battle.user.active, battle.opponent.active with
  | some ua, some oa =>
    let user_hp_percentage : ℚ := if ua.max_hp > 0 then ua.hp / ua.max_hp else 0
    if user_hp_percentage < 1/2 then false
    else oa.moves.all (fun m =>
      m.disabled || decide (calculate_move_effectiveness o m.name ua.types < 2))
  | _, _ => false

/-- `hits_opponent_team_super_effectively`. -/
def hits_opponent_team_super_effectively (o : Oracles) (move_name : String)
    (opponent_team : List Pokemon) : Bool :=
  2 ≤ (opponent_team.filter (fun p =>
    p.hp > 0 && decide (calculate_move_effectiveness o move_name p.types ≥ 2))).length

/-- `calculate_move_priority`. -/
def calculate_move_priority (o : Oracles) (battle : Battle)
    (move_name : String) : ℚ :=
  match battle.opponent.active with
  | none => 1
  | some opp_active =>
    let priority_score : ℚ := 1
    let effectiveness := calculate_move_effectiveness o move_name opp_active.types
    let priority_score :=
      if effectiveness = 0 then priority_score * (1/100)
      else if effectiveness < 1/2 then priority_score * (3/10)
      else if effectiveness = 1 then priority_score
      else if effectiveness ≥ 2 then priority_score * 2
      else priority_score
    let priority_score :=
      if is_setup_move move_name && can_setup_safely o battle
      then priority_score * (5/2) else priority_score
    let opponent_team := opp_active :: battle.opponent.reserve
    let priority_score :=
      if hits_opponent_team_super_effectively o move_name opponent_team
      then priority_score * (3/2) else priority_score
    priority_score

/-- `get_move_priorities`: every move with no PP left gets the fixed prior
`0.01`; the mapping is then normalized when its total is positive. -/
def get_move_priorities (o : Oracles) (battle : Battle) : List (String × ℚ) :=
  match battle.user.active with
  | none => []
  | some active =>
    let priorities := active.moves.foldl (fun acc move =>
      if move.current_pp ≤ 0 then alistInsert acc move.name (1/100)
      else alistInsert acc move.name (calculate_move_priority o battle move.name)) []
    let total := (priorities.map (·.2)).sum
    if total > 0 then priorities.map (fun e => (e.1, e.2 / total)) else priorities

/-- `should_strongly_consider_switching`. -/
def should_strongly_consider_switching (o : Oracles) (battle : Battle) : Bool :=
  match battle.user.active, battle.opponent.active with
  | some ua, some oa =>
    let our_moves_ineffective := !ua.moves.any (fun m =>
      m.current_pp > 0 && !is_status_move o m.name
      && decide (calculate_move_effectiveness o m.name oa.types ≥ 1))
    if our_moves_ineffective then true
    else
      let their_best := (oa.moves.filterMap (fun m =>
        if m.disabled then none
        else some (calculate_move_effectiveness o m.name ua.types))).foldl max 0
      their_best ≥ 4
  | _, _ => false

/-! ## fp/search/main.py : the heuristic fallback selector -/

/-- `get_switch_recommendation`'s result fields used by
`choose_policy_move` (the recommendation dict). -/
structure SwitchRec where
  should_switch : Bool
  pokemon_name : String
deriving Repr, DecidableEq

/-- `max(items, key=score)` for a nonempty list: Python keeps the first
maximal element.  (Python `max` raises on an empty sequence; the guard in
`choose_policy_move` makes the empty case unreachable.) -/
def maxByScore (x : String × ℚ) (xs : List (String × ℚ))
    (score : (String × ℚ) → ℚ) : String × ℚ :=
  xs.foldl (fun best y => if score y > score best then y else best) x

/-- The inner closure `choose_policy_move` of `find_best_move` (main.py).
`preserve_list` is `position_metrics['win_conditions']['preserve']` and
`momentum` is `position_metrics.get('momentum', 0.5)`; `turn_cache` is the
risk analyzer's per-turn cache consulted by the `score` closure. -/
def choose_policy_move (o : Oracles) (battle : Battle)
    (preserve_list : List String) (momentum : ℚ)
    (switch_rec : Option SwitchRec) (move_priorities : List (String × ℚ))
    (turn_cache : List (String × MoveRiskProfile)) : String :=
  let switch_condition :=
    match switch_rec with
    | some sr => sr.should_switch
        && ((match battle.user.active with
             | some a => preserve_list.contains a.name
             | none => false)
            || should_strongly_consider_switching o battle)
    | none => false
  if switch_condition then
    "switch " ++ (match switch_rec with
                  | some sr => sr.pokemon_name
                  | none => "")
  else if move_priorities = [] then
    match battle.user.active with
    | some a =>
      match a.moves with
      | m :: _ => m.name
      | [] => "struggle"
    | none => "struggle"
  else
    let score := fun (item : String × ℚ) =>
      match alistLookup turn_cache item.1 with
      | some profile =>
        if momentum > 3/5 then item.2 - profile.fail_chance
        else item.2 + profile.expected_value / 150
      | none => item.2
    match move_priorities with
    | [] => "struggle"
    | x :: xs => (maxByScore x xs score).1

/-! ## fp/strategy/wincon.py -/

/-- `SETUP_MOVES` of wincon.py. -/
def WINCON_SETUP_MOVES : List String :=
  ["swordsdance", "dragondance", "nastyplot", "quiverdance", "calmmind",
   "bulkup", "curse", "irondefense", "shellsmash", "geomancy", "tidyup",
   "coil"]

/-- `PRIORITY_MOVES` of wincon.py. -/
def WINCON_PRIORITY_MOVES : List String :=
  ["iceshard", "suckerpunch", "shadowsneak", "machpunch", "extremespeed"]

/-- `HAZARD_CONTROL_MOVES` of wincon.py. -/
def WINCON_HAZARD_CONTROL_MOVES : List String :=
  ["rapidspin", "defog", "mortalspin", "ceaselessedge", "tidyup"]

/-- `WinConditionTracker._classify_role`. -/
def classify_role (p : Pokemon) : String :=
  let move_names := p.moves.map (·.name)
  if WINCON_SETUP_MOVES.any (move_names.contains ·) then "sweeper"
  else if WINCON_HAZARD_CONTROL_MOVES.any (move_names.contains ·) then "utility"
  else if decide (p.hp > p.max_hp * (1/2)) && move_names.any (fun n =>
      n = "recover" || n = "roost" || n = "strengthsap" || n = "morningsun")
  then "wall"
  else "pivot"

/-- `WinConditionTracker._evaluate_sweeper_blockers`: the source appends an
opposing unit and breaks out of the inner loop as soon as ONE of the
sweeper's moves (of any category) has effectiveness below 1 against it;
a missing move-database entry contributes the type `"normal"`. -/
def evaluate_sweeper_blockers (o : Oracles) (sweeper : Pokemon)
    (opponents : List Pokemon) : List String :=
  opponents.foldl (fun blockers opp =>
    if opp.hp ≤ 0 then blockers
    else if sweeper.moves.any (fun mv =>
        decide (o.eff (((o.moveData mv.name).map (·.move_type)).getD "normal")
          opp.types < 1))
    then blockers ++ [opp.name]
    else blockers) []

/-- The spec's own wording of the blocker criterion, for comparison with
the implementation: an opposing unit is a blocker when it resists
(effectiveness strictly below 1) EVERY one of the sweeper's attacking
(physical or special) move types. -/
def resists_every_attacking_type (o : Oracles) (sweeper : Pokemon)
    (opp : Pokemon) : Bool :=
  sweeper.moves.all (fun mv =>
    match o.moveData mv.name with
    | some md =>
      !(md.category = "physical" || md.category = "special")
      || decide (o.eff md.move_type opp.types < 1)
    | none => true)

/-! ## fp/search/main.py : merging MCTS results into a policy -/

/-- One per-move entry of an MCTS result (`mcts_result.side_one`). -/
structure MctsSideOption where
  move_choice : String
  visits : Nat
deriving Repr, DecidableEq

/-- An MCTS result for one determinization. -/
structure MctsResult where
  side_one : List MctsSideOption
  total_visits : Nat
deriving Repr, DecidableEq

/-- The `final_policy` accumulation loop of `select_move_from_mcts_results`:
each determinization's per-move visit share, weighted by its sample
chance, is added into the aggregate move→weight dict.  (`total_visits = 0`
would raise `ZeroDivisionError` in the source; the claims assume positive
visit totals.) -/
def accumulate_policy (mcts_results : List (MctsResult × ℚ × Nat)) :
    List (String × ℚ) :=
  mcts_results.foldl (fun acc r =>
    r.1.side_one.foldl (fun acc2 opt =>
      alistAdd acc2 opt.move_choice
        (r.2.1 * ((opt.visits : ℚ) / (r.1.total_visits : ℚ)))) acc) []

/-- Python's stable `sorted(..., key=weight, reverse=True)`: insertion sort
by the descending-weight relation. -/
def sortByWeightDesc (l : List (String × ℚ)) : List (String × ℚ) :=
  List.insertionSort (fun a b : String × ℚ => b.2 ≤ a.2) l

/-- The strategic-context inputs consumed by the blending branch of
`select_move_from_mcts_results` (main.py lines 88–143), abstracted from
the context object: `momentum` is `position_metrics.get("momentum", 0.5)`
(`none` models a missing key), `line_evaluations` is the mapping returned
by `evaluate_candidate_lines`, `risk_profiles` the per-candidate risk
lookup, `double_switch_bias` and `sack_bias` the opponent-profile entries
`double_switch_success` and `sack_timing` (defaulted to 0), and
`opponent_tera_turn` the profile's `tera_turn` entry. -/
structure StrategicInputs where
  momentum : Option ℚ
  line_evaluations : String → Option ℚ
  risk_profiles : String → Option MoveRiskProfile
  double_switch_bias : ℚ
  sack_bias : ℚ
  opponent_tera_turn : Option Nat

/-- The per-move adjustment of the blending loop, followed by the final
`max(weight * adjustment, 0.0)` clamp. -/
def adjusted_weight (c : StrategicInputs) (move_name : String) (weight : ℚ) : ℚ :=
  let adjustment : ℚ := 1
  let adjustment := match c.line_evaluations move_name with
    | some v => adjustment + v
    | none => adjustment
  let adjustment := match c.risk_profiles move_name with
    | some profile =>
      let momentum := c.momentum.getD (1/2)
      let adjustment :=
        if momentum > 3/5 then adjustment * max (2/5) (1 - profile.fail_chance)
        else if momentum < 2/5 then adjustment * (1 + profile.expected_value / 150)
        else adjustment
      if profile.description = "finisher"
      then adjustment * (1 + c.sack_bias * (3/10)) else adjustment
    | none => adjustment
  let adjustment := if strStartsWith move_name "switch"
    then adjustment * max (1/5) (1 - c.double_switch_bias * (1/2)) else adjustment
  let adjustment := if strEndsWith move_name "-tera"
    then (match c.opponent_tera_turn with
          | none => adjustment * (9/10)
          | some _ => adjustment * (11/10))
    else adjustment
  max (weight * adjustment) 0

/-- The 75%-of-top trim applied after the short-circuit check. -/
def trimmed_policy (mcts_results : List (MctsResult × ℚ × Nat)) :
    List (String × ℚ) :=
  let final_policy := sortByWeightDesc (accumulate_policy mcts_results)
  let highest_percentage := ((final_policy.head?).map (·.2)).getD 0
  final_policy.filter (fun i => i.2 ≥ highest_percentage * (3/4))

/-- The total of the blended weights (`total = sum(...)` in the source). -/
def blended_total (mcts_results : List (MctsResult × ℚ × Nat))
    (c : StrategicInputs) : ℚ :=
  (((trimmed_policy mcts_results).map
    (fun e => adjusted_weight c e.1 e.2)).sum)

/-- `select_move_from_mcts_results` (main.py): returns the chosen move and
the `policy_summary` mapping.  `random.choices` is modelled by the `draw`
parameter; the move-variance computation of the source is omitted because
it only feeds logging.  When the top aggregate weight reaches 0.9 the
function short-circuits before any blending.  When no strategic context is
supplied, and when the blended total is not positive, the trimmed raw
weights are returned unnormalized — exactly as in the source. -/
def select_move_from_mcts_results (mcts_results : List (MctsResult × ℚ × Nat))
    (ctx : Option StrategicInputs)
    (draw : List (String × ℚ) → String) : String × List (String × ℚ) :=
  match sortByWeightDesc (accumulate_policy mcts_results) with
  | [] =>
    -- an empty aggregate makes the source raise `NameError` at the trim
    -- (`highest_percentage` is unbound); the claims assume nonempty input.
    (draw [], [])
  | top :: rest =>
    let highest_percentage := top.2
    if highest_percentage ≥ 9/10 then (top.1, [(top.1, 1)])
    else
    let final_policy := (top :: rest).filter
      (fun i => i.2 ≥ highest_percentage * (3/4))
    let final_policy := match ctx with
      | none => final_policy
      | some c =>
        let adjusted := final_policy.map (fun e => (e.1, adjusted_weight c e.1 e.2))
        let total := (adjusted.map (·.2)).sum
        if total > 0 then adjusted.map (fun e => (e.1, e.2 / total))
        else final_policy
    (draw final_policy, final_policy)

/-! ## Concrete fixtures for witnesses and counterexamples -/

/-- A minimal concrete unit used by the concrete witnesses below. -/
def basePokemon : Pokemon :=
  { name := "pikachu", types := ["electric"], hp := 100, max_hp := 100,
    speed := 100, item := none, ability := "static", status := none,
    knocked_off := false, terastallized := false, tera_type := none,
    volatile_statuses := [], attack_boost := 0, index := none, moves := [] }

/-- Empty hazard state. -/
def noHazards : SideConditions := ⟨0, 0, 0⟩

/-- A minimal concrete battle: both actives present, empty reserves. -/
def baseBattle : Battle :=
  { user := ⟨some basePokemon, [], noHazards⟩,
    opponent := ⟨some basePokemon, [], noHazards⟩,
    team_preview := false, time_remaining := none, turn := 1 }

/-! ## Association-list lemmas -/

theorem alistLookup_cons {β : Type} (e : String × β) (rest : List (String × β))
    (k : String) :
    alistLookup (e :: rest) k = if e.1 = k then some e.2 else alistLookup rest k := by
  by_cases h : e.1 = k
  · simp [alistLookup, List.find?_cons_of_pos, h]
  · simp [alistLookup, List.find?_cons_of_neg, h]

theorem alistLookup_insert_self {β : Type} (l : List (String × β)) (k : String)
    (v : β) : alistLookup (alistInsert l k v) k = some v := by
  induction l with
  | nil => simp [alistInsert, alistLookup_cons]
  | cons e rest ih =>
    by_cases h : e.1 = k
    · simp [alistInsert, h, alistLookup_cons]
    · simp [alistInsert, h, alistLookup_cons, ih]

theorem alistLookup_insert_ne {β : Type} (l : List (String × β)) (k k2 : String)
    (v : β) (h : k ≠ k2) :
    alistLookup (alistInsert l k v) k2 = alistLookup l k2 := by
  induction l with
  | nil => simp [alistInsert, alistLookup_cons, alistLookup, h]
  | cons e rest ih =>
    by_cases he : e.1 = k
    · simp [alistInsert, he, alistLookup_cons, h]
    · simp [alistInsert, he, alistLookup_cons, ih]

theorem alistLookup_insert_isSome {β : Type} (l : List (String × β))
    (k k2 : String) (v : β) (h : (alistLookup l k2).isSome) :
    (alistLookup (alistInsert l k v) k2).isSome := by
  by_cases hk : k = k2
  · subst hk; simp [alistLookup_insert_self]
  · rw [alistLookup_insert_ne l k k2 v hk]; exact h

/-! ## The tera context manager restores the unit (C9 groundwork) -/

theorem temporary_tera_fst {α : Type} (battle : Battle) (s : Bool)
    (body : Battle → α) : (temporary_tera battle s body).1 = battle := by
  obtain ⟨⟨active, reserve, sc⟩, opp, tp, tr, tn⟩ := battle
  cases active with
  | none => rfl
  | some pokemon =>
    obtain ⟨nm, ty, hp, mhp, sp, it, ab, stt, ko, ter, ttype, vol, abo, idx, mv⟩ := pokemon
    cases ttype with
    | none => rfl
    | some tt =>
      by_cases hc : (!s || ter) = true
      · simp [temporary_tera, hc]
      · simp [temporary_tera, hc]

theorem score_one_move_battle (o : Oracles) (lev : ℚ) (st : EvalState)
    (mv : String) : (score_one_move o lev st mv).battle = st.battle := by
  unfold score_one_move
  split
  · rfl
  · exact temporary_tera_fst ..

theorem foldl_score_battle (o : Oracles) (lev : ℚ) (l : List String)
    (st : EvalState) :
    (l.foldl (score_one_move o lev) st).battle = st.battle := by
  induction l generalizing st with
  | nil => rfl
  | cons a l ih => rw [List.foldl_cons, ih, score_one_move_battle]

theorem evaluate_moves_battle (o : Oracles) (battle : Battle)
    (pm : Option PositionMetricsDict) (cands : Option (List String))
    (cache0 : List (String × MoveRiskProfile)) :
    (evaluate_moves o battle pm cands cache0).battle = battle := by
  unfold evaluate_moves
  dsimp only
  repeat' split
  any_goals rfl
  all_goals exact foldl_score_battle ..

/-- C9 — The transient special-form (tera) simulation restores the active
unit's type set and terastallized flag on every exit path of
`evaluate_moves`, including when the damage lookup raises an error: the
context manager returns the battle unchanged for any `Except`-valued body
(covering the raising path), and a whole `evaluate_moves` call leaves the
battle — in particular the active unit's `types` and `terastallized`
fields — exactly as it found them. -/
theorem tera_types_restored_on_every_exit_path (o : Oracles) (battle : Battle)
    (pm : Option PositionMetricsDict) (cands : Option (List String))
    (cache0 : List (String × MoveRiskProfile)) (s : Bool)
    (body : Battle → Except Unit DamageEstimate) :
    (temporary_tera battle s body).1.user.active.map Pokemon.types
        = battle.user.active.map Pokemon.types
      ∧ (temporary_tera battle s body).1.user.active.map Pokemon.terastallized
        = battle.user.active.map Pokemon.terastallized
      ∧ (evaluate_moves o battle pm cands cache0).battle.user.active.map Pokemon.types
        = battle.user.active.map Pokemon.types
      ∧ (evaluate_moves o battle pm cands cache0).battle.user.active.map Pokemon.terastallized
        = battle.user.active.map Pokemon.terastallized := by
  rw [temporary_tera_fst, evaluate_moves_battle]
  exact ⟨rfl, rfl, rfl, rfl⟩

/-- C8 — A switch target holding the hazard-immune boots item (and which
has not had it knocked off, i.e. still holds it) incurs a hazard cost of
exactly zero, for every battle state and any hazards on the user's side. -/
theorem boots_switch_target_zero_hazard_cost
    (eff : String → List String → ℚ) (battle : Battle) (t : Pokemon)
    (hitem : t.item = some "heavydutyboots") (hko : t.knocked_off = false) :
    estimate_switch_hazard_cost eff battle (some t) = 0 := by
  simp [estimate_switch_hazard_cost, hitem, hko]

/-- Witness for C8: a concrete target holding the boots, with every hazard
up on the user's side, still pays zero. -/
theorem boots_switch_target_zero_hazard_cost_witness :
    ({ basePokemon with item := some "heavydutyboots" } : Pokemon).item
        = some "heavydutyboots"
      ∧ ({ basePokemon with item := some "heavydutyboots" } : Pokemon).knocked_off = false
      ∧ estimate_switch_hazard_cost (fun _ _ => 2)
          { baseBattle with user := ⟨some basePokemon, [], ⟨1, 3, 2⟩⟩ }
          (some { basePokemon with item := some "heavydutyboots" }) = 0 :=
  ⟨rfl, rfl,
   boots_switch_target_zero_hazard_cost (fun _ _ => 2)
     { baseBattle with user := ⟨some basePokemon, [], ⟨1, 3, 2⟩⟩ }
     { basePokemon with item := some "heavydutyboots" } rfl rfl⟩

/-! ## C5 : the TimeBank -/

/-- C5 (corrected) — The TimeBank is never negative: `_sync_clock` keeps a
non-negative bank non-negative (and any clock reading produces a positive
bank), and `allocate_search_time` always leaves a non-negative bank.
Monotone non-increase holds for the decrement itself: when no
authoritative clock reading is available (`time_remaining = None`) an
allocation never leaves the bank larger than before.  (The resync against
the match clock can, however, raise the bank — see the counterexample.) -/
theorem time_bank_nonneg_and_decrement_nonincreasing :
    (∀ (tm : TimeManager) (battle : Battle), 0 ≤ tm.bank_ms →
      0 ≤ (sync_clock tm battle).bank_ms)
    ∧ (∀ (tm : TimeManager) (battle : Battle) (c s : ℚ),
      0 ≤ (allocate_search_time tm battle c s).1.bank_ms)
    ∧ (∀ (tm : TimeManager) (battle : Battle) (c s : ℚ),
      0 ≤ tm.bank_ms → 0 ≤ tm.min_allocation_ms →
      battle.time_remaining = none →
      (allocate_search_time tm battle c s).1.bank_ms ≤ tm.bank_ms) := by
  refine ⟨?_, ?_, ?_⟩
  · intro tm battle h
    unfold sync_clock
    cases battle.time_remaining with
    | none => exact h
    | some t =>
      dsimp only
      calc (0 : ℚ) ≤ max 0 (t - tm.safety_buffer_s) * 1000 := by positivity
        _ ≤ max (max 0 (t - tm.safety_buffer_s) * 1000) (tm.min_allocation_ms * 3) :=
          le_max_left _ _
  · intro tm battle c s
    unfold allocate_search_time
    dsimp only
    exact le_max_left 0 _
  · intro tm battle c s hb hm ht
    unfold allocate_search_time
    have hsync : sync_clock tm battle = tm := by unfold sync_clock; rw [ht]
    rw [hsync]
    dsimp only
    apply max_le
    · exact hb
    · have halloc : (0 : ℚ) ≤
          max tm.min_allocation_ms
            (min (min (s * max 1 (c + if tm.high_leverage_turn then 2/5 else 0))
              tm.max_allocation_ms)
              (tm.bank_ms / (max (estimate_turns_remaining battle) 1 : ℚ))) :=
        le_trans hm (le_max_left _ _)
      linarith

/-- The concrete time manager of the C5 counterexample: a fully depleted
bank within a match. -/
def depletedTM : TimeManager := { TimeManager.init 100 with bank_ms := 0 }

/-- The concrete battle of the C5 counterexample: the authoritative match
clock reads 100 seconds. -/
def clockBattle : Battle := { baseBattle with time_remaining := some 100 }

/-- Counterexample to C5 as stated: with a depleted bank (0 ms) and a
match clock of 100 s, a single `allocate_search_time` call raises the bank
from 0 to 93 900 ms — the clock resync makes the bank strictly larger than
before the call, so the bank is not monotonically non-increasing across
operations. -/
theorem time_bank_not_monotone_counterexample :
    depletedTM.bank_ms = 0
      ∧ (allocate_search_time depletedTM clockBattle 1 100).1.bank_ms = 93900
      ∧ ¬ ((allocate_search_time depletedTM clockBattle 1 100).1.bank_ms
            ≤ depletedTM.bank_ms) := by
  refine ⟨rfl, by norm_num [allocate_search_time, sync_clock, depletedTM,
    clockBattle, baseBattle, basePokemon, TimeManager.init,
    estimate_turns_remaining, alive_count, noHazards], ?_⟩
  norm_num [allocate_search_time, sync_clock, depletedTM, clockBattle,
    baseBattle, basePokemon, TimeManager.init, estimate_turns_remaining,
    alive_count, noHazards]

/-- Witness for the C5 amended theorem at a concrete state: the depleted
manager without a clock reading keeps its bank at a non-negative,
non-increased value. -/
theorem time_bank_nonneg_witness :
    (0 : ℚ) ≤ depletedTM.bank_ms
      ∧ 0 ≤ depletedTM.min_allocation_ms
      ∧ baseBattle.time_remaining = none
      ∧ 0 ≤ (sync_clock depletedTM baseBattle).bank_ms
      ∧ 0 ≤ (allocate_search_time depletedTM baseBattle 1 100).1.bank_ms
      ∧ (allocate_search_time depletedTM baseBattle 1 100).1.bank_ms
          ≤ depletedTM.bank_ms :=
  ⟨le_refl 0, by norm_num [depletedTM, TimeManager.init], rfl,
   time_bank_nonneg_and_decrement_nonincreasing.1 depletedTM baseBattle (le_refl 0),
   time_bank_nonneg_and_decrement_nonincreasing.2.1 depletedTM baseBattle 1 100,
   time_bank_nonneg_and_decrement_nonincreasing.2.2 depletedTM baseBattle 1 100
     (le_refl 0) (by norm_num [depletedTM, TimeManager.init]) rfl⟩

/-! ## C3 : position criticality -/

/-- The own-alive-count factor of the criticality chain. -/
def uaFactor (n : Nat) : ℚ := if n ≤ 2 then 2 else if n ≤ 3 then 3/2 else 1

/-- The opponent-alive-count factor. -/
def oaFactor (n : Nat) : ℚ := if n ≤ 2 then 13/10 else 1

/-- The low-own-HP factor. -/
def hpFactor (b : Bool) : ℚ := if b then 3/2 else 1

/-- The opponent-sweep-potential factor. -/
def spFactor (sp : ℚ) : ℚ := if sp ≥ 7/10 then 9/5 else 1

/-- The win-condition factor. -/
def wcFactor (w : Bool) : ℚ := if w then 1 else 13/10

/-- The momentum factor. -/
def moFactor (m : ℚ) : ℚ := if m < 2/5 then 6/5 else 1

set_option maxHeartbeats 1000000 in
theorem criticality_eq_product (battle : Battle) (sp : ℚ) (hw : Bool) (mo : ℚ)
    (hpre : battle.team_preview = false) :
    calculate_position_criticality battle ⟨some sp, some hw, some mo⟩ =
      min (uaFactor (alive_count battle.user) * oaFactor (alive_count battle.opponent)
        * hpFactor (low_hp_flag battle) * spFactor sp * wcFactor hw * moFactor mo) 3 := by
  rw [calculate_position_criticality, hpre]
  cases hw <;>
    simp only [Bool.false_eq_true, if_false, Bool.not_true, Bool.not_false,
      uaFactor, oaFactor, hpFactor, spFactor, wcFactor, moFactor, if_true] <;>
    split_ifs <;> norm_num

theorem uaFactor_one_le (n : Nat) : 1 ≤ uaFactor n := by
  unfold uaFactor; split_ifs <;> norm_num

theorem oaFactor_one_le (n : Nat) : 1 ≤ oaFactor n := by
  unfold oaFactor; split_ifs <;> norm_num

theorem hpFactor_one_le (b : Bool) : 1 ≤ hpFactor b := by
  unfold hpFactor; split_ifs <;> norm_num

theorem spFactor_one_le (sp : ℚ) : 1 ≤ spFactor sp := by
  unfold spFactor; split_ifs <;> norm_num

theorem wcFactor_one_le (w : Bool) : 1 ≤ wcFactor w := by
  unfold wcFactor; split_ifs <;> norm_num

theorem moFactor_one_le (m : ℚ) : 1 ≤ moFactor m := by
  unfold moFactor; split_ifs <;> norm_num

theorem uaFactor_antitone {a b : Nat} (h : a ≤ b) : uaFactor b ≤ uaFactor a := by
  unfold uaFactor
  split_ifs <;> linarith

theorem oaFactor_antitone {a b : Nat} (h : a ≤ b) : oaFactor b ≤ oaFactor a := by
  unfold oaFactor
  split_ifs <;> linarith

theorem hpFactor_mono {a b : Bool} (h : a ≤ b) : hpFactor a ≤ hpFactor b := by
  cases a <;> cases b
  · norm_num [hpFactor]
  · norm_num [hpFactor]
  · exact absurd h (by decide)
  · norm_num [hpFactor]

theorem spFactor_mono {a b : ℚ} (h : a ≤ b) : spFactor a ≤ spFactor b := by
  unfold spFactor
  split_ifs <;> linarith

theorem wcFactor_antitone {a b : Bool} (h : a ≤ b) : wcFactor b ≤ wcFactor a := by
  cases a <;> cases b
  · norm_num [wcFactor]
  · norm_num [wcFactor]
  · exact absurd h (by decide)
  · norm_num [wcFactor]

theorem moFactor_antitone {a b : ℚ} (h : a ≤ b) : moFactor b ≤ moFactor a := by
  unfold moFactor
  split_ifs <;> linarith

theorem one_le_mul2 {a b : ℚ} (ha : 1 ≤ a) (hb : 1 ≤ b) : 1 ≤ a * b := by
  nlinarith

theorem one_le_mul6 {a b c d e f : ℚ} (ha : 1 ≤ a) (hb : 1 ≤ b) (hc : 1 ≤ c)
    (hd : 1 ≤ d) (he : 1 ≤ e) (hf : 1 ≤ f) : 1 ≤ a * b * c * d * e * f :=
  one_le_mul2 (one_le_mul2 (one_le_mul2 (one_le_mul2 (one_le_mul2 ha hb) hc) hd) he) hf

/-- C3 (corrected) — When the metrics dictionary carries all its keys
(`opp_sweep_potential`, `has_win_condition`, `momentum`) the criticality
lies in `[1, 3]` and is monotonically non-decreasing in each danger
signal: fewer own alive units, fewer opponent alive units, the low-HP
condition of the own active unit, higher opponent sweep potential, an
absent win condition, and lower momentum.  (With a malformed dictionary
the exception handler skips the clamp — see the counterexample.) -/
theorem criticality_range_and_monotone_on_complete_metrics :
    (∀ (battle : Battle) (sp : ℚ) (hw : Bool) (mo : ℚ),
      1 ≤ calculate_position_criticality battle ⟨some sp, some hw, some mo⟩
        ∧ calculate_position_criticality battle ⟨some sp, some hw, some mo⟩ ≤ 3)
    ∧ (∀ (b1 b2 : Battle) (sp : ℚ) (hw : Bool) (mo : ℚ),
      b1.team_preview = false → b2.team_preview = false →
      alive_count b2.user ≤ alive_count b1.user →
      alive_count b1.opponent = alive_count b2.opponent →
      low_hp_flag b1 = low_hp_flag b2 →
      calculate_position_criticality b1 ⟨some sp, some hw, some mo⟩
        ≤ calculate_position_criticality b2 ⟨some sp, some hw, some mo⟩)
    ∧ (∀ (b1 b2 : Battle) (sp : ℚ) (hw : Bool) (mo : ℚ),
      b1.team_preview = false → b2.team_preview = false →
      alive_count b2.opponent ≤ alive_count b1.opponent →
      alive_count b1.user = alive_count b2.user →
      low_hp_flag b1 = low_hp_flag b2 →
      calculate_position_criticality b1 ⟨some sp, some hw, some mo⟩
        ≤ calculate_position_criticality b2 ⟨some sp, some hw, some mo⟩)
    ∧ (∀ (b1 b2 : Battle) (sp : ℚ) (hw : Bool) (mo : ℚ),
      b1.team_preview = false → b2.team_preview = false →
      low_hp_flag b1 ≤ low_hp_flag b2 →
      alive_count b1.user = alive_count b2.user →
      alive_count b1.opponent = alive_count b2.opponent →
      calculate_position_criticality b1 ⟨some sp, some hw, some mo⟩
        ≤ calculate_position_criticality b2 ⟨some sp, some hw, some mo⟩)
    ∧ (∀ (battle : Battle) (sp1 sp2 : ℚ) (hw : Bool) (mo : ℚ), sp1 ≤ sp2 →
      calculate_position_criticality battle ⟨some sp1, some hw, some mo⟩
        ≤ calculate_position_criticality battle ⟨some sp2, some hw, some mo⟩)
    ∧ (∀ (battle : Battle) (sp : ℚ) (mo : ℚ),
      calculate_position_criticality battle ⟨some sp, some true, some mo⟩
        ≤ calculate_position_criticality battle ⟨some sp, some false, some mo⟩)
    ∧ (∀ (battle : Battle) (sp : ℚ) (hw : Bool) (mo1 mo2 : ℚ), mo1 ≤ mo2 →
      calculate_position_criticality battle ⟨some sp, some hw, some mo2⟩
        ≤ calculate_position_criticality battle ⟨some sp, some hw, some mo1⟩) := by
  have hbounds : ∀ (battle : Battle) (sp : ℚ) (hw : Bool) (mo : ℚ),
      1 ≤ uaFactor (alive_count battle.user) * oaFactor (alive_count battle.opponent)
        * hpFactor (low_hp_flag battle) * spFactor sp * wcFactor hw * moFactor mo :=
    fun battle sp hw mo =>
      one_le_mul6 (uaFactor_one_le _) (oaFactor_one_le _) (hpFactor_one_le _)
        (spFactor_one_le _) (wcFactor_one_le _) (moFactor_one_le _)
  have hmono : ∀ (b1 b2 : Battle) (sp1 sp2 : ℚ) (hw1 hw2 : Bool) (mo1 mo2 : ℚ),
      b1.team_preview = false → b2.team_preview = false →
      uaFactor (alive_count b1.user) ≤ uaFactor (alive_count b2.user) →
      oaFactor (alive_count b1.opponent) ≤ oaFactor (alive_count b2.opponent) →
      hpFactor (low_hp_flag b1) ≤ hpFactor (low_hp_flag b2) →
      spFactor sp1 ≤ spFactor sp2 → wcFactor hw1 ≤ wcFactor hw2 →
      moFactor mo1 ≤ moFactor mo2 →
      calculate_position_criticality b1 ⟨some sp1, some hw1, some mo1⟩
        ≤ calculate_position_criticality b2 ⟨some sp2, some hw2, some mo2⟩ := by
    intro b1 b2 sp1 sp2 hw1 hw2 mo1 mo2 hp1 hp2 hua hoa hhp hsp hwc hmo
    rw [criticality_eq_product b1 sp1 hw1 mo1 hp1,
        criticality_eq_product b2 sp2 hw2 mo2 hp2]
    apply min_le_min _ le_rfl
    have g1 := uaFactor_one_le (alive_count b1.user)
    have g2 := oaFactor_one_le (alive_count b1.opponent)
    have g3 := hpFactor_one_le (low_hp_flag b1)
    have g4 := spFactor_one_le sp1
    have g5 := wcFactor_one_le hw1
    have g6 := moFactor_one_le mo1
    have g1b := uaFactor_one_le (alive_count b2.user)
    have g2b := oaFactor_one_le (alive_count b2.opponent)
    have g3b := hpFactor_one_le (low_hp_flag b2)
    have g4b := spFactor_one_le sp2
    have g5b := wcFactor_one_le hw2
    have g6b := moFactor_one_le mo2
    gcongr
  refine ⟨?_, ?_, ?_, ?_, ?_, ?_, ?_⟩
  · intro battle sp hw mo
    by_cases hpre : battle.team_preview = true
    · unfold calculate_position_criticality
      rw [hpre]
      norm_num
    · rw [criticality_eq_product battle sp hw mo (by simpa using hpre)]
      constructor
      · exact le_min (hbounds battle sp hw mo) (by norm_num)
      · exact min_le_right _ _
  · intro b1 b2 sp hw mo hp1 hp2 hua hoa hhp
    exact hmono b1 b2 sp sp hw hw mo mo hp1 hp2 (uaFactor_antitone hua)
      (by rw [hoa]) (by rw [hhp]) le_rfl le_rfl le_rfl
  · intro b1 b2 sp hw mo hp1 hp2 hoa hua hhp
    exact hmono b1 b2 sp sp hw hw mo mo hp1 hp2 (by rw [hua])
      (oaFactor_antitone hoa) (by rw [hhp]) le_rfl le_rfl le_rfl
  · intro b1 b2 sp hw mo hp1 hp2 hhp hua hoa
    exact hmono b1 b2 sp sp hw hw mo mo hp1 hp2 (by rw [hua]) (by rw [hoa])
      (hpFactor_mono hhp) le_rfl le_rfl le_rfl
  · intro battle sp1 sp2 hw mo hsp
    by_cases hpre : battle.team_preview = true
    · simp [calculate_position_criticality, hpre]
    · exact hmono battle battle sp1 sp2 hw hw mo mo (by simpa using hpre)
        (by simpa using hpre) le_rfl le_rfl le_rfl (spFactor_mono hsp) le_rfl le_rfl
  · intro battle sp mo
    by_cases hpre : battle.team_preview = true
    · simp [calculate_position_criticality, hpre]
    · exact hmono battle battle sp sp true false mo mo (by simpa using hpre)
        (by simpa using hpre) le_rfl le_rfl le_rfl le_rfl
        (wcFactor_antitone (by simp)) le_rfl
  · intro battle sp hw mo1 mo2 hmo12
    by_cases hpre : battle.team_preview = true
    · simp [calculate_position_criticality, hpre]
    · exact hmono battle battle sp sp hw hw mo2 mo1 (by simpa using hpre)
        (by simpa using hpre) le_rfl le_rfl le_rfl le_rfl le_rfl
        (moFactor_antitone hmo12)

/-- The battle of the C3 counterexample: two units each side, the user's
active at 10% HP. -/
def endgameBattle : Battle :=
  { baseBattle with
    user := ⟨some { basePokemon with hp := 10 }, [], noHazards⟩ }

/-- Counterexample to C3 as stated: an incomplete metrics dictionary
(missing `opp_sweep_potential`) routes `calculate_position_criticality`
through its exception handler, which doubles the accumulated value and
skips the `min(·, 3.0)` clamp, returning `7.8 ∉ [1, 3]`. -/
theorem criticality_above_three_counterexample :
    calculate_position_criticality endgameBattle ⟨none, some true, some (1/2)⟩
        = 39/5
      ∧ ¬ (calculate_position_criticality endgameBattle
              ⟨none, some true, some (1/2)⟩ ≤ 3) := by
  constructor
  · norm_num [calculate_position_criticality, criticality_handler, endgameBattle,
      baseBattle, basePokemon, alive_count, low_hp_flag, noHazards]
  · norm_num [calculate_position_criticality, criticality_handler, endgameBattle,
      baseBattle, basePokemon, alive_count, low_hp_flag, noHazards]

/-- A battle with the user's full team alive (three units), for the C3
witness. -/
def fullTeamBattle : Battle :=
  { baseBattle with
    user := ⟨some basePokemon, [basePokemon, basePokemon], noHazards⟩ }

/-- Witness for the C3 amended theorem: at a concrete battle with complete
metrics, the criticality is in range, and shrinking the user's team from
three alive units to one does not decrease it. -/
theorem criticality_range_witness :
    (1 ≤ calculate_position_criticality endgameBattle ⟨some 1, some false, some 0⟩
      ∧ calculate_position_criticality endgameBattle ⟨some 1, some false, some 0⟩ ≤ 3)
      ∧ calculate_position_criticality fullTeamBattle ⟨some 0, some true, some 1⟩
          ≤ calculate_position_criticality baseBattle ⟨some 0, some true, some 1⟩ :=
  ⟨criticality_range_and_monotone_on_complete_metrics.1 endgameBattle 1 false 0,
   criticality_range_and_monotone_on_complete_metrics.2.1 fullTeamBattle baseBattle
     0 true 1 rfl rfl
     (by norm_num [fullTeamBattle, endgameBattle, baseBattle, basePokemon,
       alive_count, noHazards])
     (by norm_num [fullTeamBattle, baseBattle, basePokemon, alive_count, noHazards])
     (by norm_num [fullTeamBattle, baseBattle, basePokemon, low_hp_flag, noHazards])⟩

/-! ## C6 : sweeper blockers -/

/-- The one-resisted-move test of the blocker loop, for a single opposing
unit. -/
def resists_some_move (o : Oracles) (sweeper opp : Pokemon) : Bool :=
  sweeper.moves.any (fun mv =>
    decide (o.eff (((o.moveData mv.name).map (·.move_type)).getD "normal")
      opp.types < 1))

theorem blockers_foldl_mem (o : Oracles) (sweeper : Pokemon)
    (opponents : List Pokemon) (acc : List String) (name : String) :
    (name ∈ opponents.foldl (fun blockers opp =>
        if opp.hp ≤ 0 then blockers
        else if sweeper.moves.any (fun mv =>
            decide (o.eff (((o.moveData mv.name).map (·.move_type)).getD "normal")
              opp.types < 1))
        then blockers ++ [opp.name]
        else blockers) acc)
      ↔ name ∈ acc ∨ ∃ opp ∈ opponents,
          0 < opp.hp ∧ opp.name = name ∧ resists_some_move o sweeper opp = true := by
  induction opponents generalizing acc with
  | nil => simp
  | cons p ps ih =>
    by_cases hhp : p.hp ≤ 0
    · rw [List.foldl_cons, if_pos hhp, ih]
      constructor
      · rintro (h | ⟨opp, hm, hpos, hn, hr⟩)
        · exact Or.inl h
        · exact Or.inr ⟨opp, List.mem_cons_of_mem p hm, hpos, hn, hr⟩
      · rintro (h | ⟨opp, hm, hpos, hn, hr⟩)
        · exact Or.inl h
        · rcases List.mem_cons.mp hm with heq | hmem
          · subst heq; exact absurd hhp (not_le.mpr hpos)
          · exact Or.inr ⟨opp, hmem, hpos, hn, hr⟩
    · by_cases hr : resists_some_move o sweeper p = true
      · rw [List.foldl_cons, if_neg hhp, if_pos (by simpa [resists_some_move] using hr), ih]
        constructor
        · rintro (h | ⟨opp, hm, hpos, hn, hrr⟩)
          · rcases List.mem_append.mp h with h | h
            · exact Or.inl h
            · exact Or.inr ⟨p, List.mem_cons_self p ps, not_le.mp hhp,
                (List.mem_singleton.mp h).symm, hr⟩
          · exact Or.inr ⟨opp, List.mem_cons_of_mem p hm, hpos, hn, hrr⟩
        · rintro (h | ⟨opp, hm, hpos, hn, hrr⟩)
          · exact Or.inl (List.mem_append.mpr (Or.inl h))
          · rcases List.mem_cons.mp hm with heq | hmem
            · subst heq
              exact Or.inl (List.mem_append.mpr (Or.inr (by simp [hn])))
            · exact Or.inr ⟨opp, hmem, hpos, hn, hrr⟩
      · rw [List.foldl_cons, if_neg hhp,
            if_neg (by simpa [resists_some_move] using hr), ih]
        constructor
        · rintro (h | ⟨opp, hm, hpos, hn, hrr⟩)
          · exact Or.inl h
          · exact Or.inr ⟨opp, List.mem_cons_of_mem p hm, hpos, hn, hrr⟩
        · rintro (h | ⟨opp, hm, hpos, hn, hrr⟩)
          · exact Or.inl h
          · rcases List.mem_cons.mp hm with heq | hmem
            · subst heq; exact absurd hrr hr
            · exact Or.inr ⟨opp, hmem, hpos, hn, hrr⟩

/-- C6 (corrected) — An opposing unit is listed as a blocker by
`_evaluate_sweeper_blockers` iff it is alive and resists (effectiveness
below 1) AT LEAST ONE of the sweeper's moves — of any category, status
moves included — not iff it resists every attacking move type. -/
theorem blocker_iff_resists_some_move (o : Oracles) (sweeper : Pokemon)
    (opponents : List Pokemon) (name : String) :
    name ∈ evaluate_sweeper_blockers o sweeper opponents
      ↔ ∃ opp ∈ opponents,
          0 < opp.hp ∧ opp.name = name ∧ resists_some_move o sweeper opp = true := by
  rw [evaluate_sweeper_blockers, blockers_foldl_mem]
  simp

/-- The move database of the C6 counterexample: a fire-type and a
grass-type physical attack. -/
def blockerMoveData : String → Option MoveData := fun n =>
  if n = "flamethrower" then some ⟨"special", 90, "fire", .anum 100, false, false⟩
  else if n = "energyball" then some ⟨"special", 90, "grass", .anum 100, false, false⟩
  else none

/-- The type chart of the C6 counterexample: water resists fire, water is
weak to grass. -/
def blockerEff : String → List String → ℚ := fun t d =>
  if t = "fire" && d.contains "water" then 1/2
  else if t = "grass" && d.contains "water" then 2
  else 1

/-- The oracles of the C6 counterexample. -/
def blockerOracles : Oracles :=
  ⟨blockerMoveData, id, blockerEff, fun _ _ => .error ()⟩

/-- The sweeper of the C6 counterexample: carries both attacks. -/
def blockerSweeper : Pokemon :=
  { basePokemon with
    name := "charizard",
    moves := [⟨"flamethrower", 15, false⟩, ⟨"energyball", 10, false⟩] }

/-- The opposing unit of the C6 counterexample: a water type. -/
def blockerOpp : Pokemon :=
  { basePokemon with name := "blastoise", types := ["water"] }

/-- Counterexample to C6 as stated: the water unit resists the fire attack
but is weak to the grass attack, so it does NOT resist every attacking
move type — yet the tracker lists it as a blocker, because the source
appends a blocker as soon as one move is resisted. -/
theorem blocker_without_resisting_every_type_counterexample :
    evaluate_sweeper_blockers blockerOracles blockerSweeper [blockerOpp]
        = ["blastoise"]
      ∧ resists_every_attacking_type blockerOracles blockerSweeper blockerOpp
        = false := by
  constructor
  · simp [evaluate_sweeper_blockers, blockerOracles, blockerSweeper, blockerOpp,
      blockerMoveData, blockerEff, basePokemon]
    norm_num
  · simp [resists_every_attacking_type, blockerOracles, blockerSweeper, blockerOpp,
      blockerMoveData, blockerEff, basePokemon]

/-! ## C7 : the zero-PP fallback -/

theorem alistInsert_ne_nil {β : Type} (l : List (String × β)) (k : String)
    (v : β) : alistInsert l k v ≠ [] := by
  cases l with
  | nil => simp [alistInsert]
  | cons e rest =>
    unfold alistInsert
    split <;> simp

theorem alistInsert_keys_sub {β : Type} (l : List (String × β)) (k : String)
    (v : β) (e : String × β) (h : e ∈ alistInsert l k v) :
    e.1 ∈ l.map (·.1) ∨ e.1 = k := by
  induction l with
  | nil =>
    simp [alistInsert] at h
    simp [h]
  | cons x rest ih =>
    unfold alistInsert at h
    split at h
    · rcases List.mem_cons.mp h with heq | hmem
      · exact Or.inr (by simp [heq])
      · exact Or.inl (by
          simp only [List.map_cons, List.mem_cons]
          exact Or.inr (List.mem_map_of_mem (·.1) hmem))
    · rcases List.mem_cons.mp h with heq | hmem
      · exact Or.inl (by simp [heq])
      · rcases ih hmem with hl | hk
        · exact Or.inl (by
            simp only [List.map_cons, List.mem_cons]
            exact Or.inr hl)
        · exact Or.inr hk

theorem priorities_fold_keys (o : Oracles) (battle : Battle)
    (moves : List Move) (acc : List (String × ℚ)) (e : String × ℚ)
    (h : e ∈ moves.foldl (fun acc2 move =>
      if move.current_pp ≤ 0 then alistInsert acc2 move.name (1/100)
      else alistInsert acc2 move.name (calculate_move_priority o battle move.name))
      acc) :
    e.1 ∈ acc.map (·.1) ∨ e.1 ∈ moves.map (·.name) := by
  induction moves generalizing acc with
  | nil => exact Or.inl (by simpa using List.mem_map_of_mem (·.1) h)
  | cons m rest ih =>
    rw [List.foldl_cons] at h
    have step : ∀ acc2 : List (String × ℚ),
        (if m.current_pp ≤ 0 then alistInsert acc2 m.name (1/100)
         else alistInsert acc2 m.name (calculate_move_priority o battle m.name))
          = alistInsert acc2 m.name
              (if m.current_pp ≤ 0 then 1/100
               else calculate_move_priority o battle m.name) := by
      intro acc2; split <;> rfl
    rw [step] at h
    rcases ih _ h with hacc | hrest
    · rcases List.mem_map.mp hacc with ⟨x, hx, hx1⟩
      rcases alistInsert_keys_sub acc m.name _ x hx with hl | hk
      · exact Or.inl (by rw [← hx1]; exact hl)
      · exact Or.inr (by simp [← hx1, hk])
    · exact Or.inr (by simp at hrest ⊢; exact Or.inr hrest)

theorem priorities_fold_ne_nil {β : Type}
    (step : List (String × β) → Move → List (String × β))
    (hstep : ∀ acc m, step acc m ≠ [])
    (moves : List Move) (acc : List (String × β)) (hmoves : moves ≠ []) :
    moves.foldl step acc ≠ [] := by
  induction moves generalizing acc with
  | nil => exact absurd rfl hmoves
  | cons m rest ih =>
    rw [List.foldl_cons]
    cases rest with
    | nil => simpa using hstep acc m
    | cons r rs => exact ih _ (by simp)

theorem get_move_priorities_keys (o : Oracles) (battle : Battle) (a : Pokemon)
    (hu : battle.user.active = some a) (e : String × ℚ)
    (h : e ∈ get_move_priorities o battle) : e.1 ∈ a.moves.map (·.name) := by
  rw [get_move_priorities, hu] at h
  dsimp only at h
  split at h
  · rcases List.mem_map.mp h with ⟨x, hx, hx1⟩
    have := priorities_fold_keys o battle a.moves [] x hx
    simp at this
    rw [← hx1]
    simpa using this
  · have := priorities_fold_keys o battle a.moves [] e h
    simpa using this

theorem get_move_priorities_ne_nil (o : Oracles) (battle : Battle) (a : Pokemon)
    (hu : battle.user.active = some a) (hmoves : a.moves ≠ []) :
    get_move_priorities o battle ≠ [] := by
  rw [get_move_priorities, hu]
  dsimp only
  have hfold : a.moves.foldl (fun acc move =>
      if move.current_pp ≤ 0 then alistInsert acc move.name (1/100)
      else alistInsert acc move.name (calculate_move_priority o battle move.name))
      [] ≠ [] := by
    apply priorities_fold_ne_nil
    · intro acc m
      split <;> apply alistInsert_ne_nil
    · exact hmoves
  split
  · simpa using hfold
  · exact hfold

theorem foldl_best_pred (score : (String × ℚ) → ℚ) (P : (String × ℚ) → Prop)
    (l : List (String × ℚ)) (acc : String × ℚ) (hacc : P acc)
    (hl : ∀ y ∈ l, P y) :
    P (l.foldl (fun best y => if score y > score best then y else best) acc) := by
  induction l generalizing acc with
  | nil => exact hacc
  | cons y ys ih =>
    rw [List.foldl_cons]
    apply ih
    · split
      · exact hl y (List.mem_cons_self y ys)
      · exact hacc
    · intro z hz
      exact hl z (List.mem_cons_of_mem y hz)

theorem maxByScore_mem (x : String × ℚ) (xs : List (String × ℚ))
    (score : (String × ℚ) → ℚ) : maxByScore x xs score ∈ x :: xs :=
  foldl_best_pred score (· ∈ x :: xs) xs x (List.mem_cons_self x xs)
    (fun _ hy => List.mem_cons_of_mem x hy)

/-- C7 (corrected) — When the active unit's whole move list is at zero PP
and no switch is recommended, the fallback selector does NOT return the
no-op token: every zero-PP move receives the fixed prior 0.01 (so the
priorities mapping is nonempty), and the selector returns the name of one
of those unusable moves.  The `"struggle"` token is returned only when the
priorities mapping and the move list are both empty. -/
theorem zero_pp_selector_returns_move_name (o : Oracles) (battle : Battle)
    (a : Pokemon) (preserve_list : List String) (momentum : ℚ)
    (turn_cache : List (String × MoveRiskProfile))
    (hu : battle.user.active = some a) (hmoves : a.moves ≠ [])
    (hpp : ∀ m ∈ a.moves, m.current_pp ≤ 0) :
    choose_policy_move o battle preserve_list momentum none
        (get_move_priorities o battle) turn_cache ∈ a.moves.map (·.name) := by
  have hne := get_move_priorities_ne_nil o battle a hu hmoves
  unfold choose_policy_move
  simp only [Bool.false_eq_true, if_false, if_neg hne]
  cases hmp : get_move_priorities o battle with
  | nil => exact absurd hmp hne
  | cons x xs =>
    dsimp only
    have hmem : maxByScore x xs (fun item =>
        match alistLookup turn_cache item.1 with
        | some profile =>
          if momentum > 3/5 then item.2 - profile.fail_chance
          else item.2 + profile.expected_value / 150
        | none => item.2) ∈ x :: xs := maxByScore_mem ..
    rw [← hmp] at hmem
    exact get_move_priorities_keys o battle a hu _ hmem

/-- The oracles of the C7 scenario (no move data needed: a zero-PP move
never consults it). -/
def zeroPPOracles : Oracles :=
  ⟨fun _ => none, id, fun _ _ => 1, fun _ _ => .error ()⟩

/-- The active unit of the C7 scenario: a single move with no PP left. -/
def zeroPPPokemon : Pokemon :=
  { basePokemon with moves := [⟨"tackle", 0, false⟩] }

/-- The battle of the C7 scenario. -/
def zeroPPBattle : Battle :=
  { baseBattle with user := ⟨some zeroPPPokemon, [], noHazards⟩ }

/-- Counterexample to C7 as stated: with the whole move list at zero PP
and no switch recommendation, the selector returns the unusable move
`"tackle"` (priority 0.01, normalized to 1), not the no-op token
`"struggle"`. -/
theorem zero_pp_selector_counterexample :
    choose_policy_move zeroPPOracles zeroPPBattle [] (1/2) none
        (get_move_priorities zeroPPOracles zeroPPBattle) [] = "tackle"
      ∧ ("tackle" : String) ≠ "struggle" := by
  constructor
  · norm_num [choose_policy_move, get_move_priorities, zeroPPBattle,
      zeroPPPokemon, zeroPPOracles, basePokemon, alistInsert, maxByScore,
      alistLookup]
  · simp

/-- Witness for the C7 amended theorem at the concrete zero-PP battle. -/
theorem zero_pp_selector_witness :
    choose_policy_move zeroPPOracles zeroPPBattle [] (1/2) none
        (get_move_priorities zeroPPOracles zeroPPBattle) []
      ∈ zeroPPPokemon.moves.map (·.name) :=
  zero_pp_selector_returns_move_name zeroPPOracles zeroPPBattle zeroPPPokemon
    [] (1/2) [] rfl (by simp [zeroPPPokemon])
    (by
      intro m hm
      simp [zeroPPPokemon] at hm
      simp [hm])

/-! ## C4 / C10 : evaluate_moves caching and status moves -/

/-- The profile that one iteration of the `evaluate_moves` scoring loop
stores for `move_name`, expressed against the loop's (invariant) battle. -/
def score_profile (o : Oracles) (leverage_multiplier : ℚ) (battle : Battle)
    (move_name : String) : MoveRiskProfile :=
  if strStartsWith move_name "switch" then
    let target := resolve_switch_target o battle move_name
    let hazard_cost := estimate_switch_hazard_cost o.eff battle target
    let description := if hazard_cost ≤ 1 then "switch" else "switch-hazard"
    ⟨move_name, -hazard_cost, 0, hazard_cost * leverage_multiplier * (1/20),
     -hazard_cost, 0, hazard_cost, 0, description⟩
  else
    let meta := split_move_metadata move_name
    let normalized_name := o.norm meta.1
    let scored := temporary_tera battle meta.2.1
      (fun b => estimate_damage o b normalized_name true)
    let damage := scored.2.1
    let d1 : String := if meta.2.1 then "tera" else if meta.2.2 then "mega" else "raw"
    let d2 := if damage.fail_chance ≥ 3/10 then "high-risk" else d1
    let d3 := match scored.1.opponent.active with
      | some opp => if opp.hp ≠ 0 && decide (damage.max_damage ≥ opp.hp)
                    then "finisher" else d2
      | none => d2
    build_profile_from_damage move_name damage leverage_multiplier d3 0

/-- The number of damage-engine queries one iteration of the scoring loop
issues for `move_name`. -/
def score_queries (o : Oracles) (battle : Battle) (move_name : String) : Nat :=
  if strStartsWith move_name "switch" then 0
  else
    let meta := split_move_metadata move_name
    let normalized_name := o.norm meta.1
    (temporary_tera battle meta.2.1
      (fun b => estimate_damage o b normalized_name true)).2.2

theorem score_one_move_cache (o : Oracles) (lev : ℚ) (st : EvalState)
    (mv : String) :
    (score_one_move o lev st mv).cache
      = alistInsert st.cache mv (score_profile o lev st.battle mv) := by
  unfold score_one_move score_profile
  split <;> rfl

theorem score_one_move_queries (o : Oracles) (lev : ℚ) (st : EvalState)
    (mv : String) :
    (score_one_move o lev st mv).queries
      = st.queries + score_queries o st.battle mv := by
  unfold score_one_move score_queries
  split <;> rfl

theorem foldl_score_lookup (o : Oracles) (lev : ℚ) (B : Battle)
    (l : List String) (st : EvalState) (hB : st.battle = B) (m : String)
    (hm : m ∈ l ∨ alistLookup st.cache m = some (score_profile o lev B m)) :
    alistLookup ((l.foldl (score_one_move o lev) st).cache) m
      = some (score_profile o lev B m) := by
  induction l generalizing st with
  | nil =>
    rcases hm with h | h
    · exact absurd h (List.not_mem_nil m)
    · exact h
  | cons a as ih =>
    rw [List.foldl_cons]
    apply ih
    · rw [score_one_move_battle, hB]
    · by_cases ham : a = m
      · subst ham
        exact Or.inr (by rw [score_one_move_cache, hB, alistLookup_insert_self])
      · rcases hm with h | h
        · rcases List.mem_cons.mp h with h1 | h2
          · exact absurd h1.symm ham
          · exact Or.inl h2
        · exact Or.inr
            (by rw [score_one_move_cache, alistLookup_insert_ne _ _ _ _ ham, h])

theorem foldl_score_lookup_isSome (o : Oracles) (lev : ℚ) (l : List String)
    (st : EvalState) (m : String)
    (hm : m ∈ l ∨ (alistLookup st.cache m).isSome) :
    (alistLookup ((l.foldl (score_one_move o lev) st).cache) m).isSome := by
  induction l generalizing st with
  | nil =>
    rcases hm with h | h
    · exact absurd h (List.not_mem_nil m)
    · exact h
  | cons a as ih =>
    rw [List.foldl_cons]
    apply ih
    by_cases ham : a = m
    · subst ham
      exact Or.inr (by rw [score_one_move_cache, alistLookup_insert_self]; rfl)
    · rcases hm with h | h
      · rcases List.mem_cons.mp h with h1 | h2
        · exact absurd h1.symm ham
        · exact Or.inl h2
      · exact Or.inr
          (by rw [score_one_move_cache, alistLookup_insert_ne _ _ _ _ ham]; exact h)

theorem evaluate_moves_inactive (o : Oracles) (battle : Battle)
    (pm : Option PositionMetricsDict) (cands : Option (List String))
    (cache0 : List (String × MoveRiskProfile))
    (h : battle.user.active = none ∨ battle.opponent.active = none) :
    evaluate_moves o battle pm cands cache0 = ⟨battle, cache0, cache0, 0⟩ := by
  unfold evaluate_moves
  rcases h with h | h <;> simp [h]

theorem evaluate_moves_some_active (o : Oracles) (battle : Battle)
    (pm : Option PositionMetricsDict) (C : List String)
    (cache0 : List (String × MoveRiskProfile))
    (hu : battle.user.active ≠ none) (ho : battle.opponent.active ≠ none) :
    evaluate_moves o battle pm (some C) cache0 =
      if C = [] then ⟨battle, cache0, cache0, 0⟩
      else if C.filter (fun mv => (alistLookup cache0 mv).isNone) = [] then
        ⟨battle, cache0, resultFor C cache0, 0⟩
      else
        let final := (C.filter (fun mv => (alistLookup cache0 mv).isNone)).foldl
          (score_one_move o (leverage_from_metrics pm)) ⟨battle, cache0, 0⟩
        ⟨final.battle, final.cache, resultFor C final.cache, final.queries⟩ := by
  unfold evaluate_moves
  rw [if_neg (by simp [hu, ho])]

/-- C4 (corrected) — Re-running `evaluate_moves` with the SAME EXPLICIT
candidate set against the cache produced by the first run is idempotent:
it returns the same mapping, leaves the cache unchanged, and issues zero
damage-engine queries.  (The default full-move-list call, by contrast,
clears the cache and re-queries — see the counterexample.) -/
theorem evaluate_moves_repeat_same_candidates (o : Oracles) (battle : Battle)
    (pm : Option PositionMetricsDict) (C : List String)
    (cache0 : List (String × MoveRiskProfile)) :
    (evaluate_moves o battle pm (some C)
        (evaluate_moves o battle pm (some C) cache0).cache).result
      = (evaluate_moves o battle pm (some C) cache0).result
    ∧ (evaluate_moves o battle pm (some C)
        (evaluate_moves o battle pm (some C) cache0).cache).cache
      = (evaluate_moves o battle pm (some C) cache0).cache
    ∧ (evaluate_moves o battle pm (some C)
        (evaluate_moves o battle pm (some C) cache0).cache).queries = 0 := by
  by_cases hg : battle.user.active = none ∨ battle.opponent.active = none
  · rw [evaluate_moves_inactive o battle pm (some C) cache0 hg]
    dsimp only
    rw [evaluate_moves_inactive o battle pm (some C) cache0 hg]
    exact ⟨rfl, rfl, rfl⟩
  · push_neg at hg
    obtain ⟨hu, ho⟩ := hg
    rw [evaluate_moves_some_active o battle pm C cache0 hu ho]
    by_cases hC : C = []
    · rw [if_pos hC]
      dsimp only
      rw [evaluate_moves_some_active o battle pm C cache0 hu ho, if_pos hC]
      exact ⟨rfl, rfl, rfl⟩
    · rw [if_neg hC]
      by_cases hF : C.filter (fun mv => (alistLookup cache0 mv).isNone) = []
      · rw [if_pos hF]
        dsimp only
        rw [evaluate_moves_some_active o battle pm C cache0 hu ho, if_neg hC,
          if_pos hF]
        exact ⟨rfl, rfl, rfl⟩
      · rw [if_neg hF]
        dsimp only
        set F := C.filter (fun mv => (alistLookup cache0 mv).isNone) with hFdef
        set final := F.foldl (score_one_move o (leverage_from_metrics pm))
          ⟨battle, cache0, 0⟩ with hfinal
        have hall : ∀ mv ∈ C, (alistLookup final.cache mv).isSome := by
          intro mv hmv
          apply foldl_score_lookup_isSome
          by_cases hmem : (alistLookup cache0 mv).isNone
          · exact Or.inl (by rw [hFdef]; exact List.mem_filter.mpr ⟨hmv, by simpa using hmem⟩)
          · exact Or.inr (by simpa [Option.isNone_iff_eq_none, Option.isSome_iff_ne_none] using hmem)
        have hF2 : C.filter (fun mv => (alistLookup final.cache mv).isNone) = [] := by
          rw [List.filter_eq_nil_iff]
          intro mv hmv
          have := hall mv hmv
          simp [Option.isNone_iff_eq_none, Option.isSome_iff_ne_none] at this ⊢
          exact this
        rw [evaluate_moves_some_active o battle pm C final.cache hu ho,
          if_neg hC, if_pos hF2]
        exact ⟨rfl, rfl, rfl⟩

theorem evaluate_moves_default_cache_independent (o : Oracles) (battle : Battle)
    (pm : Option PositionMetricsDict)
    (c0 c1 : List (String × MoveRiskProfile))
    (hu : battle.user.active ≠ none) (ho : battle.opponent.active ≠ none) :
    evaluate_moves o battle pm none c0 = evaluate_moves o battle pm none c1 := by
  have hC : (decide (battle.user.active = none)
      || decide (battle.opponent.active = none)) = false := by
    simp [hu, ho]
  simp only [evaluate_moves, hC, Bool.false_eq_true, if_false]

/-- The oracles of the C4 counterexample: one physical move known to the
move database, a damage engine that always answers. -/
def cexOracles : Oracles :=
  ⟨fun n => if n = "tackle"
    then some ⟨"physical", 40, "normal", .anum 100, false, false⟩ else none,
   id, fun _ _ => 1, fun _ _ => .ok [30, 45]⟩

/-- The active unit of the C4 counterexample. -/
def cexAttacker : Pokemon := { basePokemon with moves := [⟨"tackle", 16, false⟩] }

/-- The battle of the C4 counterexample. -/
def cexBattle : Battle :=
  { baseBattle with user := ⟨some cexAttacker, [], noHazards⟩ }

/-- Counterexample to C4 as stated: the default call of `evaluate_moves`
(the one that evaluates the active unit's full move list) issues one
damage-engine query; repeating it in the same turn against the cache the
first call produced issues ONE MORE query (not zero), because the default
call clears `turn_cache` before scoring. -/
theorem evaluate_moves_default_requeries_counterexample :
    (evaluate_moves cexOracles cexBattle none none []).queries = 1
      ∧ (evaluate_moves cexOracles cexBattle none none
          (evaluate_moves cexOracles cexBattle none none []).cache).queries = 1
      ∧ (1 : Nat) ≠ 0 := by
  have h1 : (evaluate_moves cexOracles cexBattle none none []).queries = 1 := rfl
  refine ⟨h1, ?_, one_ne_zero⟩
  rw [evaluate_moves_default_cache_independent cexOracles cexBattle none _ []
    (by simp [cexBattle]) (by simp [cexBattle, baseBattle])]
  exact h1

theorem temporary_tera_snd_const {α : Type} (battle : Battle) (s : Bool)
    (body : Battle → α) (v : α) (h : ∀ b, body b = v) :
    (temporary_tera battle s body).2 = v := by
  unfold temporary_tera
  repeat' split
  all_goals exact h _

theorem evaluate_moves_default_active (o : Oracles) (battle : Battle)
    (pm : Option PositionMetricsDict)
    (cache0 : List (String × MoveRiskProfile)) (u : Pokemon)
    (hu : battle.user.active = some u) (ho : battle.opponent.active ≠ none)
    (hmoves : u.moves ≠ []) :
    evaluate_moves o battle pm none cache0 =
      (let final := (u.moves.map (·.name)).foldl
          (score_one_move o (leverage_from_metrics pm)) ⟨battle, [], 0⟩
       ⟨final.battle, final.cache, resultFor (u.moves.map (·.name)) final.cache,
        final.queries⟩) := by
  unfold evaluate_moves
  rw [if_neg (by simp [hu, ho])]
  have hfilter : List.filter
      (fun mv => (alistLookup ([] : List (String × MoveRiskProfile)) mv).isNone)
      (u.moves.map (·.name)) = u.moves.map (·.name) :=
    List.filter_eq_self.mpr (fun a _ => rfl)
  simp only [hu, Option.map_some', Option.getD_some]
  rw [if_neg (by simpa using hmoves), hfilter,
    if_neg (by simpa using hmoves)]

/-- C10 (corrected) — For a candidate whose NAME does not begin with the
`"switch"` prefix and whose move data has a category other than physical
or special (a status move), `estimate_damage` returns the zero estimate
without querying the damage engine (for ANY battle state), and the
default `evaluate_moves` call caches a profile for that move with
`expected_value 0`, `fail_chance 1.0` and description `"high-risk"`
whenever the opponent's active unit has positive HP.  (A status move
whose name begins with `"switch"`, such as `switcheroo`, instead takes
the switch branch of the scoring loop and is cached with `fail_chance 0`
and description `"switch"` — see the counterexample.) -/
theorem status_move_zero_profile (o : Oracles) (battle : Battle)
    (pm : Option PositionMetricsDict)
    (cache0 : List (String × MoveRiskProfile)) (u opp : Pokemon) (mv : Move)
    (md : MoveData) (hu : battle.user.active = some u)
    (ho : battle.opponent.active = some opp) (hhp : 0 < opp.hp)
    (hmem : mv ∈ u.moves)
    (hsw : strStartsWith mv.name "switch" = false)
    (hsw2 : strStartsWith (o.norm (split_move_metadata mv.name).1) "switch" = false)
    (hnorm : o.norm (o.norm (split_move_metadata mv.name).1)
      = o.norm (split_move_metadata mv.name).1)
    (hdata : o.moveData (o.norm (split_move_metadata mv.name).1) = some md)
    (hphys : md.category ≠ "physical") (hspec : md.category ≠ "special") :
    (∀ b : Battle,
      estimate_damage o b (o.norm (split_move_metadata mv.name).1) true
        = (DamageEstimate.zero (o.norm (split_move_metadata mv.name).1), 0))
    ∧ alistLookup (evaluate_moves o battle pm none cache0).cache mv.name
        = some ⟨mv.name, 0, 1, 0, 0, 0, 0, 0, "high-risk"⟩ := by
  have hzero : ∀ b : Battle,
      estimate_damage o b (o.norm (split_move_metadata mv.name).1) true
        = (DamageEstimate.zero (o.norm (split_move_metadata mv.name).1), 0) := by
    intro b
    unfold estimate_damage
    rw [if_neg (by simp [hsw2])]
    dsimp only
    rw [hnorm, hdata]
    dsimp only
    rw [if_pos (by simp [hphys, hspec])]
  refine ⟨hzero, ?_⟩
  have hmoves : u.moves ≠ [] := fun h => by simp [h] at hmem
  rw [evaluate_moves_default_active o battle pm cache0 u hu (by simp [ho]) hmoves]
  dsimp only
  have hlook := foldl_score_lookup o (leverage_from_metrics pm) battle
    (u.moves.map (·.name)) ⟨battle, [], 0⟩ rfl mv.name
    (Or.inl (List.mem_map_of_mem (·.name) hmem))
  rw [hlook]
  have hprofile : score_profile o (leverage_from_metrics pm) battle mv.name
      = ⟨mv.name, 0, 1, 0, 0, 0, 0, 0, "high-risk"⟩ := by
    unfold score_profile
    rw [if_neg (by simp [hsw])]
    dsimp only
    have hsnd : (temporary_tera battle (split_move_metadata mv.name).2.1
        (fun b => estimate_damage o b (o.norm (split_move_metadata mv.name).1) true)).2
        = (DamageEstimate.zero (o.norm (split_move_metadata mv.name).1), 0) :=
      temporary_tera_snd_const _ _ _ _ hzero
    rw [temporary_tera_fst, hsnd, ho]
    dsimp only
    have hfail : (DamageEstimate.zero
        (o.norm (split_move_metadata mv.name).1)).fail_chance = 1 := by
      simp [DamageEstimate.fail_chance, DamageEstimate.zero]
    rw [hfail]
    have hge : ¬ ((DamageEstimate.zero
        (o.norm (split_move_metadata mv.name).1)).max_damage ≥ opp.hp) := by
      have h0 : (DamageEstimate.zero
          (o.norm (split_move_metadata mv.name).1)).max_damage = 0 := rfl
      rw [h0]
      linarith
    norm_num [build_profile_from_damage, DamageEstimate.zero,
      DamageEstimate.fail_chance, hge]
    intro _ h2
    exact absurd h2 (not_le.mpr hhp)
  rw [hprofile]

/-- The move database entry of the C10 witness. -/
def statusMD : MoveData := ⟨"status", 0, "electric", .anum 90, false, false⟩

/-- The oracles of the C10 witness: one status move. -/
def statusOracles : Oracles :=
  ⟨fun n => if n = "thunderwave" then some statusMD else none,
   id, fun _ _ => 1, fun _ _ => .ok [10, 15]⟩

/-- The status move of the C10 witness. -/
def statusMove : Move := ⟨"thunderwave", 20, false⟩

/-- The active unit of the C10 witness. -/
def statusUser : Pokemon := { basePokemon with moves := [statusMove] }

/-- The battle of the C10 witness. -/
def statusBattle : Battle :=
  { baseBattle with user := ⟨some statusUser, [], noHazards⟩ }

/-- Witness for C10 at a concrete battle: the status move yields the zero
estimate with no engine query and is cached as a zero-value high-risk
profile. -/
theorem status_move_zero_profile_witness :
    0 < basePokemon.hp
      ∧ ((∀ b : Battle, estimate_damage statusOracles b
            (statusOracles.norm (split_move_metadata statusMove.name).1) true
          = (DamageEstimate.zero
              (statusOracles.norm (split_move_metadata statusMove.name).1), 0))
        ∧ alistLookup (evaluate_moves statusOracles statusBattle none none []).cache
            statusMove.name
          = some ⟨statusMove.name, 0, 1, 0, 0, 0, 0, 0, "high-risk"⟩) :=
  ⟨by norm_num [basePokemon],
   status_move_zero_profile statusOracles statusBattle none [] statusUser
     basePokemon statusMove statusMD rfl rfl (by norm_num [basePokemon])
     (by simp [statusUser]) (by decide) (by decide) rfl rfl (by decide) (by decide)⟩

/-- The move database entry of the C10 counterexample: `switcheroo` is a
status move whose name starts with the switch prefix. -/
def switcherooMD : MoveData := ⟨"status", 0, "dark", .anum 100, false, false⟩

/-- The oracles of the C10 counterexample. -/
def switcherooOracles : Oracles :=
  ⟨fun n => if n = "switcheroo" then some switcherooMD else none,
   id, fun _ _ => 1, fun _ _ => .ok [10, 15]⟩

/-- The active unit of the C10 counterexample. -/
def switcherooUser : Pokemon :=
  { basePokemon with moves := [⟨"switcheroo", 10, false⟩] }

/-- The battle of the C10 counterexample: opponent alive at full HP. -/
def switcherooBattle : Battle :=
  { baseBattle with user := ⟨some switcherooUser, [], noHazards⟩ }

/-- Counterexample to C10 as stated: `switcheroo` is a status move (its
move data has category `"status"`) and the opponent's active unit has
positive HP, yet the analyzer caches it with `fail_chance 0` and
description `"switch"` — not `fail_chance 1.0` / `"high-risk"` — because
the scoring loop's `startswith("switch")` check routes it through the
switch branch before the move data is ever consulted. -/
theorem status_move_switch_prefix_counterexample :
    switcherooOracles.moveData "switcheroo" = some switcherooMD
      ∧ switcherooMD.category = "status"
      ∧ strStartsWith "switcheroo" "switch" = true
      ∧ 0 < basePokemon.hp
      ∧ alistLookup (evaluate_moves switcherooOracles switcherooBattle none none []).cache
          "switcheroo" = some ⟨"switcheroo", 0, 0, 0, 0, 0, 0, 0, "switch"⟩
      ∧ ((0 : ℚ) ≠ 1 ∧ ("switch" : String) ≠ "high-risk") := by
  refine ⟨rfl, rfl, by decide, by norm_num [basePokemon], ?_,
    by norm_num, by decide⟩
  rw [evaluate_moves_default_active switcherooOracles switcherooBattle none []
    switcherooUser rfl (by simp [switcherooBattle, baseBattle])
    (by simp [switcherooUser])]
  dsimp only
  rw [show (switcherooUser.moves.map (·.name)) = ["switcheroo"] from rfl]
  rw [List.foldl_cons, List.foldl_nil]
  rw [score_one_move_cache, alistLookup_insert_self]
  congr 1
  unfold score_profile
  rw [if_pos (show (strStartsWith "switcheroo" "switch") = true from by decide)]
  rw [show resolve_switch_target switcherooOracles switcherooBattle "switcheroo"
    = none from rfl]
  dsimp only
  rw [show estimate_switch_hazard_cost switcherooOracles.eff switcherooBattle none
    = 0 from rfl]
  norm_num [leverage_from_metrics]

/-! ## C1 / C2 : the policy blender -/

theorem alistAdd_sum (l : List (String × ℚ)) (k : String) (w : ℚ) :
    ((alistAdd l k w).map (·.2)).sum = (l.map (·.2)).sum + w := by
  induction l with
  | nil => simp [alistAdd]
  | cons e rest ih =>
    unfold alistAdd
    split
    · simp
      ring
    · simp [ih]
      ring

theorem alistAdd_nonneg (l : List (String × ℚ)) (k : String) (w : ℚ)
    (hl : ∀ e ∈ l, 0 ≤ e.2) (hw : 0 ≤ w) :
    ∀ e ∈ alistAdd l k w, 0 ≤ e.2 := by
  induction l with
  | nil =>
    intro e he
    simp [alistAdd] at he
    simp [he, hw]
  | cons x rest ih =>
    intro e he
    unfold alistAdd at he
    split at he
    · rcases List.mem_cons.mp he with heq | hmem
      · subst heq
        exact add_nonneg (hl x (List.mem_cons_self x rest)) hw
      · exact hl e (List.mem_cons_of_mem x hmem)
    · rcases List.mem_cons.mp he with heq | hmem
      · subst heq
        exact hl e (List.mem_cons_self e rest)
      · exact ih (fun e2 he2 => hl e2 (List.mem_cons_of_mem x he2)) e hmem

theorem alistAdd_keys (l : List (String × ℚ)) (k : String) (w : ℚ) :
    (alistAdd l k w).map (·.1)
      = if k ∈ l.map (·.1) then l.map (·.1) else l.map (·.1) ++ [k] := by
  induction l with
  | nil => simp [alistAdd]
  | cons x rest ih =>
    unfold alistAdd
    by_cases hx : x.1 = k
    · rw [if_pos hx]
      simp [hx]
    · rw [if_neg hx]
      simp only [List.map_cons, ih]
      by_cases hk : k ∈ rest.map (·.1)
      · rw [if_pos hk, if_pos (List.mem_cons_of_mem x.1 hk)]
      · rw [if_neg hk, if_neg ?_]
        · simp
        · intro hmem
          rcases List.mem_cons.mp hmem with heq | hmem2
          · exact hx heq.symm
          · exact hk hmem2

theorem alistAdd_keys_nodup (l : List (String × ℚ)) (k : String) (w : ℚ)
    (h : (l.map (·.1)).Nodup) : ((alistAdd l k w).map (·.1)).Nodup := by
  rw [alistAdd_keys]
  split
  · exact h
  · rename_i hk
    rw [List.nodup_append]
    refine ⟨h, List.nodup_singleton k, ?_⟩
    intro a ha hb
    rw [List.mem_singleton] at hb
    subst hb
    exact hk ha

theorem alistLookup_mem {β : Type} (l : List (String × β)) (k : String) (v : β)
    (h : alistLookup l k = some v) : (k, v) ∈ l := by
  unfold alistLookup at h
  cases hf : l.find? (fun e => e.1 = k) with
  | none => rw [hf] at h; simp at h
  | some e =>
    rw [hf] at h
    simp at h
    have hmem := List.mem_of_find?_eq_some hf
    have hp := List.find?_some hf
    simp at hp
    obtain ⟨e1, e2⟩ := e
    simp at hp h
    rw [hp, h] at hmem
    exact hmem

theorem pair_weight_bound (l : List (String × ℚ))
    (hnn : ∀ e ∈ l, 0 ≤ e.2) {m : String} {w : ℚ} (hm : (m, w) ∈ l)
    {e : String × ℚ} (he : e ∈ l) (hne : e.1 ≠ m) :
    e.2 + w ≤ (l.map (·.2)).sum := by
  obtain ⟨l2, hperm⟩ : ∃ l2, l.Perm ((m, w) :: l2) :=
    ⟨_, List.perm_cons_erase hm⟩
  have hsum : (l.map (·.2)).sum = w + (l2.map (·.2)).sum := by
    have hps := (hperm.map (·.2)).sum_eq
    simpa using hps
  rw [hsum]
  have hee : e ∈ l2 := by
    rcases List.mem_cons.mp (hperm.subset he) with heq | h2
    · exact absurd (by rw [heq]) hne
    · exact h2
  have hle : e.2 ≤ (l2.map (·.2)).sum := by
    apply List.single_le_sum
    · intro x hx
      rcases List.mem_map.mp hx with ⟨y, hy, hxy⟩
      rw [← hxy]
      exact hnn y (hperm.symm.subset (List.mem_cons_of_mem _ hy))
    · exact List.mem_map_of_mem (·.2) hee
  linarith

theorem nodup_keys_unique (l : List (String × ℚ))
    (hnd : (l.map (·.1)).Nodup) {a b : String × ℚ} (ha : a ∈ l) (hb : b ∈ l)
    (hk : a.1 = b.1) : a = b := by
  induction l with
  | nil => cases ha
  | cons x xs ih =>
    rw [List.map_cons, List.nodup_cons] at hnd
    rcases List.mem_cons.mp ha with rfl | ha2
    · rcases List.mem_cons.mp hb with rfl | hb2
      · rfl
      · exact absurd (hk ▸ List.mem_map_of_mem (·.1) hb2) hnd.1
    · rcases List.mem_cons.mp hb with rfl | hb2
      · exact absurd (hk ▸ List.mem_map_of_mem (·.1) ha2) hnd.1
      · exact ih hnd.2 ha2 hb2

theorem sortByWeightDesc_perm (l : List (String × ℚ)) :
    (sortByWeightDesc l).Perm l :=
  List.perm_insertionSort _ l

theorem sortByWeightDesc_sorted (l : List (String × ℚ)) :
    List.Sorted (fun a b : String × ℚ => b.2 ≤ a.2) (sortByWeightDesc l) := by
  haveI : IsTotal (String × ℚ) (fun a b : String × ℚ => b.2 ≤ a.2) :=
    ⟨fun a b => le_total b.2 a.2⟩
  haveI : IsTrans (String × ℚ) (fun a b : String × ℚ => b.2 ≤ a.2) :=
    ⟨fun _ _ _ h1 h2 => le_trans h2 h1⟩
  exact List.sorted_insertionSort _ l

theorem list_sum_map_div {α : Type} (f : α → ℚ) (l : List α) (c : ℚ) :
    (l.map (fun x => f x / c)).sum = (l.map f).sum / c := by
  induction l with
  | nil => simp
  | cons x xs ih =>
    simp [ih]
    ring

theorem list_sum_map_mul_left {α : Type} (c : ℚ) (f : α → ℚ) (l : List α) :
    (l.map (fun x => c * f x)).sum = c * (l.map f).sum := by
  induction l with
  | nil => simp
  | cons x xs ih =>
    simp [ih]
    ring

theorem foldl_alistAdd_sum {α : Type} (key : α → String) (wt : α → ℚ)
    (l : List α) (acc : List (String × ℚ)) :
    ((l.foldl (fun a x => alistAdd a (key x) (wt x)) acc).map (·.2)).sum
      = (acc.map (·.2)).sum + (l.map wt).sum := by
  induction l generalizing acc with
  | nil => simp
  | cons x xs ih =>
    rw [List.foldl_cons, ih, alistAdd_sum]
    simp
    ring

theorem accumulate_foldl_sum (results : List (MctsResult × ℚ × Nat))
    (acc : List (String × ℚ)) :
    ((results.foldl (fun acc2 r =>
        r.1.side_one.foldl (fun acc3 opt =>
          alistAdd acc3 opt.move_choice
            (r.2.1 * ((opt.visits : ℚ) / (r.1.total_visits : ℚ)))) acc2)
      acc).map (·.2)).sum
      = (acc.map (·.2)).sum
        + (results.map (fun r => (r.1.side_one.map (fun opt =>
            r.2.1 * ((opt.visits : ℚ) / (r.1.total_visits : ℚ)))).sum)).sum := by
  induction results generalizing acc with
  | nil => simp
  | cons r rs ih =>
    rw [List.foldl_cons, ih, foldl_alistAdd_sum]
    simp
    ring

theorem accumulate_policy_total (results : List (MctsResult × ℚ × Nat))
    (hch : (results.map (fun r => r.2.1)).sum = 1)
    (hvt : ∀ r ∈ results, (r.1.side_one.map (·.visits)).sum = r.1.total_visits)
    (htv : ∀ r ∈ results, 0 < r.1.total_visits) :
    ((accumulate_policy results).map (·.2)).sum = 1 := by
  unfold accumulate_policy
  rw [accumulate_foldl_sum]
  simp only [List.map_nil, List.sum_nil, zero_add]
  have hinner : ∀ r ∈ results,
      (r.1.side_one.map (fun opt =>
        r.2.1 * ((opt.visits : ℚ) / (r.1.total_visits : ℚ)))).sum = r.2.1 := by
    intro r hr
    rw [list_sum_map_mul_left r.2.1
      (fun opt => (opt.visits : ℚ) / (r.1.total_visits : ℚ)) r.1.side_one]
    rw [list_sum_map_div (fun opt => (opt.visits : ℚ)) r.1.side_one
      (r.1.total_visits : ℚ)]
    have hcast : (r.1.side_one.map (fun opt => (opt.visits : ℚ))).sum
        = (r.1.total_visits : ℚ) := by
      have h1 := congrArg (fun n : ℕ => (n : ℚ)) (hvt r hr)
      simpa [Nat.cast_list_sum, List.map_map, Function.comp] using h1
    rw [hcast, div_self (Nat.cast_ne_zero.mpr (Nat.pos_iff_ne_zero.mp (htv r hr))),
      mul_one]
  rw [List.map_congr_left hinner]
  exact hch

theorem foldl_alistAdd_nonneg {α : Type} (key : α → String) (wt : α → ℚ)
    (l : List α) (acc : List (String × ℚ)) (hacc : ∀ e ∈ acc, 0 ≤ e.2)
    (hw : ∀ x ∈ l, 0 ≤ wt x) :
    ∀ e ∈ l.foldl (fun a x => alistAdd a (key x) (wt x)) acc, 0 ≤ e.2 := by
  induction l generalizing acc with
  | nil => exact hacc
  | cons x xs ih =>
    rw [List.foldl_cons]
    exact ih _ (alistAdd_nonneg _ _ _ hacc (hw x (List.mem_cons_self x xs)))
      (fun y hy => hw y (List.mem_cons_of_mem x hy))

theorem accumulate_policy_nonneg (results : List (MctsResult × ℚ × Nat))
    (hch : ∀ r ∈ results, 0 ≤ r.2.1) :
    ∀ e ∈ accumulate_policy results, 0 ≤ e.2 := by
  unfold accumulate_policy
  have main : ∀ (rs : List (MctsResult × ℚ × Nat)) (acc : List (String × ℚ)),
      (∀ r ∈ rs, 0 ≤ r.2.1) → (∀ e ∈ acc, 0 ≤ e.2) →
      ∀ e ∈ rs.foldl (fun acc2 r => r.1.side_one.foldl (fun acc3 opt =>
        alistAdd acc3 opt.move_choice
          (r.2.1 * ((opt.visits : ℚ) / (r.1.total_visits : ℚ)))) acc2) acc,
        0 ≤ e.2 := by
    intro rs
    induction rs with
    | nil =>
      intro acc _ hacc
      simpa using hacc
    | cons r rest ih =>
      intro acc hrs hacc
      rw [List.foldl_cons]
      apply ih _ (fun x hx => hrs x (List.mem_cons_of_mem r hx))
      apply foldl_alistAdd_nonneg _ _ _ _ hacc
      intro opt _
      exact mul_nonneg (hrs r (List.mem_cons_self r rest))
        (div_nonneg (Nat.cast_nonneg _) (Nat.cast_nonneg _))
  exact main results [] hch (by simp)

theorem foldl_alistAdd_nodup {α : Type} (key : α → String) (wt : α → ℚ)
    (l : List α) (acc : List (String × ℚ))
    (hacc : (acc.map (·.1)).Nodup) :
    ((l.foldl (fun a x => alistAdd a (key x) (wt x)) acc).map (·.1)).Nodup := by
  induction l generalizing acc with
  | nil => exact hacc
  | cons x xs ih =>
    rw [List.foldl_cons]
    exact ih _ (alistAdd_keys_nodup _ _ _ hacc)

theorem accumulate_policy_nodup (results : List (MctsResult × ℚ × Nat)) :
    ((accumulate_policy results).map (·.1)).Nodup := by
  unfold accumulate_policy
  have main : ∀ (rs : List (MctsResult × ℚ × Nat)) (acc : List (String × ℚ)),
      (acc.map (·.1)).Nodup →
      ((rs.foldl (fun acc2 r => r.1.side_one.foldl (fun acc3 opt =>
        alistAdd acc3 opt.move_choice
          (r.2.1 * ((opt.visits : ℚ) / (r.1.total_visits : ℚ)))) acc2)
        acc).map (·.1)).Nodup := by
    intro rs
    induction rs with
    | nil =>
      intro acc hacc
      simpa using hacc
    | cons r rest ih =>
      intro acc hacc
      rw [List.foldl_cons]
      exact ih _ (foldl_alistAdd_nodup _ _ _ _ hacc)
  exact main results [] (by simp)

/-- C2 (confirmed) — Under the determinization contract (sample chances
sum to 1 and are non-negative; each result's visit counts sum to its
positive visit total), if one move's aggregate probability-weighted visit
share reaches 0.9, the selector short-circuits: it returns exactly that
move with the policy mapping `{move: 1.0}`, for EVERY strategic context
(so no blending adjustment, renormalization or random draw is applied —
the result does not depend on `ctx` or `draw`). -/
theorem dominant_move_selected_with_certainty
    (results : List (MctsResult × ℚ × Nat)) (ctx : Option StrategicInputs)
    (draw : List (String × ℚ) → String) (m : String) (w : ℚ)
    (hch : (results.map (fun r => r.2.1)).sum = 1)
    (hchnn : ∀ r ∈ results, 0 ≤ r.2.1)
    (hvt : ∀ r ∈ results, (r.1.side_one.map (·.visits)).sum = r.1.total_visits)
    (htv : ∀ r ∈ results, 0 < r.1.total_visits)
    (hlk : alistLookup (accumulate_policy results) m = some w)
    (hw : 9/10 ≤ w) :
    select_move_from_mcts_results results ctx draw = (m, [(m, 1)]) := by
  have hmem : (m, w) ∈ accumulate_policy results := alistLookup_mem _ _ _ hlk
  have hsum := accumulate_policy_total results hch hvt htv
  have hnn := accumulate_policy_nonneg results hchnn
  have hnd := accumulate_policy_nodup results
  have hperm := sortByWeightDesc_perm (accumulate_policy results)
  have hsorted := sortByWeightDesc_sorted (accumulate_policy results)
  cases hS : sortByWeightDesc (accumulate_policy results) with
  | nil =>
    exfalso
    have h2 : (m, w) ∈ sortByWeightDesc (accumulate_policy results) :=
      hperm.symm.subset hmem
    rw [hS] at h2
    cases h2
  | cons top rest =>
    have htopmem : top ∈ accumulate_policy results := by
      apply hperm.subset
      rw [hS]
      exact List.mem_cons_self top rest
    have htop_eq : top = (m, w) := by
      by_contra hne
      have hmw_sort : (m, w) ∈ top :: rest := by
        rw [← hS]
        exact hperm.symm.subset hmem
      rcases List.mem_cons.mp hmw_sort with heq | hmw_rest
      · exact hne heq.symm
      · have hwle : w ≤ top.2 := by
          have hsc : List.Sorted (fun a b : String × ℚ => b.2 ≤ a.2) (top :: rest) :=
            hS ▸ hsorted
          simpa using (List.sorted_cons.mp hsc).1 (m, w) hmw_rest
        by_cases hkey : top.1 = m
        · exact hne (nodup_keys_unique _ hnd htopmem hmem hkey)
        · have hb := pair_weight_bound _ hnn hmem htopmem hkey
          rw [hsum] at hb
          linarith
    unfold select_move_from_mcts_results
    rw [hS, htop_eq]
    dsimp only
    rw [if_pos (show ((m, w) : String × ℚ).2 ≥ 9/10 from hw)]

theorem normalized_sum_one (l : List (String × ℚ)) (t : ℚ) (ht : t ≠ 0)
    (hsum : (l.map (·.2)).sum = t) :
    ((l.map (fun e => (e.1, e.2 / t))).map (·.2)).sum = 1 := by
  rw [List.map_map]
  have hc : ((·.2) ∘ fun e : String × ℚ => (e.1, e.2 / t))
      = fun e : String × ℚ => e.2 / t := rfl
  rw [hc, list_sum_map_div (·.2) l t, hsum, div_self ht]

/-- C1 (corrected) — The output policy weights sum to exactly 1 in the two
renormalizing cases: when the top aggregate weight reaches 0.9 (the
short-circuit returns `{move: 1.0}`), and when a strategic context is
supplied and the post-blending total is positive (explicit
renormalization).  With no strategic context, or when every adjusted
weight is zero, the returned mapping is the trimmed raw aggregate, whose
sum is only the retained mass — see the counterexample. -/
theorem policy_sums_to_one_in_renormalizing_cases :
    (∀ (results : List (MctsResult × ℚ × Nat)) (ctx : Option StrategicInputs)
        (draw : List (String × ℚ) → String) (top : String × ℚ)
        (rest : List (String × ℚ)),
      sortByWeightDesc (accumulate_policy results) = top :: rest →
      (9:ℚ)/10 ≤ top.2 →
      ((select_move_from_mcts_results results ctx draw).2.map (·.2)).sum = 1)
    ∧ (∀ (results : List (MctsResult × ℚ × Nat)) (c : StrategicInputs)
        (draw : List (String × ℚ) → String) (top : String × ℚ)
        (rest : List (String × ℚ)),
      sortByWeightDesc (accumulate_policy results) = top :: rest →
      top.2 < 9/10 → 0 < blended_total results c →
      ((select_move_from_mcts_results results (some c) draw).2.map (·.2)).sum = 1) := by
  constructor
  · intro results ctx draw top rest hS hge
    unfold select_move_from_mcts_results
    rw [hS]
    dsimp only
    rw [if_pos (show top.2 ≥ 9/10 from hge)]
    simp
  · intro results c draw top rest hS hlt hpos
    unfold select_move_from_mcts_results
    rw [hS]
    dsimp only
    rw [if_neg (show ¬ (top.2 ≥ 9/10) from not_le.mpr hlt)]
    dsimp only
    have htot : ((((top :: rest).filter (fun i => i.2 ≥ top.2 * (3/4))).map
        (fun e => (e.1, adjusted_weight c e.1 e.2))).map (·.2)).sum
        = blended_total results c := by
      unfold blended_total trimmed_policy
      rw [hS]
      dsimp only
      rw [List.map_map]
      rfl
    rw [htot, if_pos hpos]
    exact normalized_sum_one _ _ (ne_of_gt hpos) htot

/-- The MCTS results of the C2 witness and C1 short-circuit witness: one
determinization giving 95% of its visits to `"a"`. -/
def domResults : List (MctsResult × ℚ × Nat) := [(⟨[⟨"a", 95⟩, ⟨"b", 5⟩], 100⟩, 1, 0)]

/-- The draw function of the concrete scenarios: picks the head. -/
def drawHead : List (String × ℚ) → String :=
  fun l => ((l.head?).map (·.1)).getD ""

/-- The MCTS results of the C1 counterexample: 60% / 40% split. -/
def cexResults : List (MctsResult × ℚ × Nat) := [(⟨[⟨"a", 60⟩, ⟨"b", 40⟩], 100⟩, 1, 0)]

/-- A strategic context whose blending inputs are all trivial. -/
def trivialCtx : StrategicInputs := ⟨none, fun _ => none, fun _ => none, 0, 0, none⟩

theorem dom_sorted :
    sortByWeightDesc (accumulate_policy domResults) = [("a", 19/20), ("b", 1/20)] := by
  norm_num [domResults, accumulate_policy, alistAdd, sortByWeightDesc,
    List.insertionSort, List.orderedInsert]

theorem cex_sorted :
    sortByWeightDesc (accumulate_policy cexResults) = [("a", 3/5), ("b", 2/5)] := by
  norm_num [cexResults, accumulate_policy, alistAdd, sortByWeightDesc,
    List.insertionSort, List.orderedInsert]

/-- Witness for C2: a concrete dominant (95%) move is selected with the
degenerate policy, context or not. -/
theorem dominant_move_selected_witness :
    (domResults.map (fun r => r.2.1)).sum = 1
      ∧ alistLookup (accumulate_policy domResults) "a" = some (19/20)
      ∧ (9:ℚ)/10 ≤ 19/20
      ∧ select_move_from_mcts_results domResults (some trivialCtx) drawHead
          = ("a", [("a", 1)]) :=
  ⟨by norm_num [domResults],
   by norm_num [domResults, accumulate_policy, alistAdd, alistLookup, List.find?],
   by norm_num,
   dominant_move_selected_with_certainty domResults (some trivialCtx) drawHead
     "a" (19/20)
     (by norm_num [domResults])
     (by intro r hr; simp [domResults] at hr; simp [hr])
     (by intro r hr; simp [domResults] at hr; simp [hr])
     (by intro r hr; simp [domResults] at hr; simp [hr])
     (by norm_num [domResults, accumulate_policy, alistAdd, alistLookup, List.find?])
     (by norm_num)⟩

/-- Counterexample to C1 as stated: with one positive-weight entry
(`"a"` at 0.6) and no strategic context, the returned policy is the
trimmed raw aggregate `{"a": 0.6}`, whose sum is 0.6 — more than 1e-6
away from 1. -/
theorem policy_sum_below_one_counterexample :
    alistLookup (accumulate_policy cexResults) "a" = some (3/5)
      ∧ (0:ℚ) < 3/5
      ∧ ((select_move_from_mcts_results cexResults none drawHead).2.map (·.2)).sum
          = 3/5
      ∧ ¬ (|(3/5 : ℚ) - 1| ≤ 1/1000000) := by
  refine ⟨by norm_num [cexResults, accumulate_policy, alistAdd, alistLookup,
    List.find?], by norm_num, ?_, ?_⟩
  · unfold select_move_from_mcts_results
    rw [cex_sorted]
    norm_num
  · intro h
    rw [abs_le] at h
    linarith [h.1]

/-- Witness for the C1 amended theorem: both renormalizing cases at
concrete inputs. -/
theorem policy_sums_to_one_witness :
    ((select_move_from_mcts_results domResults none drawHead).2.map (·.2)).sum = 1
      ∧ ((select_move_from_mcts_results cexResults (some trivialCtx) drawHead).2.map
          (·.2)).sum = 1 :=
  ⟨policy_sums_to_one_in_renormalizing_cases.1 domResults none drawHead
     ("a", 19/20) [("b", 1/20)] dom_sorted (by norm_num),
   policy_sums_to_one_in_renormalizing_cases.2 cexResults trivialCtx drawHead
     ("a", 3/5) [("b", 2/5)] cex_sorted (by norm_num)
     (by
       norm_num [blended_total, trimmed_policy, cex_sorted, adjusted_weight,
         trivialCtx]
       norm_num [show strStartsWith "a" "switch" = false from by decide,
         show strEndsWith "a" "-tera" = false from by decide])⟩

end FoulPlay
